import Mathlib

/-!
# seapin: content identifiers and the gateway handlers

A shallow embedding of `main.go` of the seapin IPFS gateway.

* `computeCID`, `handleIPFS` and `handleUpload` are translated from `main.go`.
* The library functions they call (`crypto/sha256`, `go-varint`, `go-multihash`,
  `go-multibase`, `go-cid`, `net/http`, `minio-go`) are not part of the
  repository's source; each is modelled below from its published format and
  its definition says so.

Conventions: a Go `[]byte` (and a Go `string` holding binary data) is a
`List Nat` of values below 256; a Go `string` holding text is a `String`, whose
`len` is `String.utf8ByteSize`; `uint32`/`uint64` arithmetic is on `Nat` with
an explicit reduction modulo the word size.
-/

set_option autoImplicit false

namespace Seapin

/-! ## crypto/sha256 -/

namespace sha256

/-- Modelled from the spec: `uint32` addition of `crypto/sha256` (FIPS 180-4),
which is not under src/; it wraps at 32 bits. -/
def add32 (a b : Nat) : Nat := (a + b) % 2 ^ 32

/-- Modelled from the spec: `bits.RotateLeft32(x, -n)`, a rotation of a 32-bit
word to the right by `n` bits; the library is not under src/. -/
def rotr32 (x n : Nat) : Nat := (x >>> n ||| x <<< (32 - n)) % 2 ^ 32

/-- Modelled from the spec: the round constants `_K` of SHA2-256 (FIPS 180-4
section 4.2.2); the table is not under src/. -/
def K : List Nat := [
  0x428A2F98, 0x71374491, 0xB5C0FBCF, 0xE9B5DBA5, 0x3956C25B, 0x59F111F1, 0x923F82A4, 0xAB1C5ED5,
  0xD807AA98, 0x12835B01, 0x243185BE, 0x550C7DC3, 0x72BE5D74, 0x80DEB1FE, 0x9BDC06A7, 0xC19BF174,
  0xE49B69C1, 0xEFBE4786, 0x0FC19DC6, 0x240CA1CC, 0x2DE92C6F, 0x4A7484AA, 0x5CB0A9DC, 0x76F988DA,
  0x983E5152, 0xA831C66D, 0xB00327C8, 0xBF597FC7, 0xC6E00BF3, 0xD5A79147, 0x06CA6351, 0x14292967,
  0x27B70A85, 0x2E1B2138, 0x4D2C6DFC, 0x53380D13, 0x650A7354, 0x766A0ABB, 0x81C2C92E, 0x92722C85,
  0xA2BFE8A1, 0xA81A664B, 0xC24B8B70, 0xC76C51A3, 0xD192E819, 0xD6990624, 0xF40E3585, 0x106AA070,
  0x19A4C116, 0x1E376C08, 0x2748774C, 0x34B0BCB5, 0x391C0CB3, 0x4ED8AA4A, 0x5B9CCA4F, 0x682E6FF3,
  0x748F82EE, 0x78A5636F, 0x84C87814, 0x8CC70208, 0x90BEFFFA, 0xA4506CEB, 0xBEF9A3F7, 0xC67178F2]

/-- Modelled from the spec: the chaining value `h [8]uint32` of the library's
`digest`, which is not under src/. -/
structure State where
  h0 : Nat
  h1 : Nat
  h2 : Nat
  h3 : Nat
  h4 : Nat
  h5 : Nat
  h6 : Nat
  h7 : Nat
deriving DecidableEq, Repr

/-- Modelled from the spec: the initial chaining value of SHA2-256 (FIPS 180-4
section 5.3.3); the library is not under src/. -/
def init : State :=
  ⟨0x6A09E667, 0xBB67AE85, 0x3C6EF372, 0xA54FF53A, 0x510E527F, 0x9B05688C, 0x1F83D9AB, 0x5BE0CD19⟩

/-- Modelled from the spec: the big-endian 32-bit words of a byte block, as the
block function of `crypto/sha256` (not under src/) reads them. -/
def beWords : List Nat → List Nat
  | a :: b :: c :: d :: rest =>
      ((a % 256) <<< 24 ||| (b % 256) <<< 16 ||| (c % 256) <<< 8 ||| (d % 256)) :: beWords rest
  | _ => []

/-- Modelled from the spec: the message schedule of SHA2-256, extended by `n`
further words; the schedule is kept newest word first, so `w[i-2]`, `w[i-7]`,
`w[i-15]` and `w[i-16]` sit at positions 1, 6, 14 and 15. The library is not
under src/. -/
def extend : Nat → List Nat → List Nat
  | 0, w => w
  | n + 1, w =>
      let v1 := w.getD 1 0
      let v2 := w.getD 14 0
      let t1 := rotr32 v1 17 ^^^ rotr32 v1 19 ^^^ (v1 >>> 10)
      let t2 := rotr32 v2 7 ^^^ rotr32 v2 18 ^^^ (v2 >>> 3)
      extend n (add32 (add32 (add32 t1 (w.getD 6 0)) t2) (w.getD 15 0) :: w)

/-- Modelled from the spec: one of the 64 rounds of the SHA2-256 compression
function, on the working variables `a` to `h` with the round constant and the
schedule word; the library is not under src/. -/
def round (s : State) (kw : Nat × Nat) : State :=
  let t1 := add32 (add32 (add32 (add32 s.h7
      (rotr32 s.h4 6 ^^^ rotr32 s.h4 11 ^^^ rotr32 s.h4 25))
      ((s.h4 &&& s.h5) ^^^ ((s.h4 ^^^ (2 ^ 32 - 1)) &&& s.h6))) kw.1) kw.2
  let t2 := add32 (rotr32 s.h0 2 ^^^ rotr32 s.h0 13 ^^^ rotr32 s.h0 22)
      ((s.h0 &&& s.h1) ^^^ (s.h0 &&& s.h2) ^^^ (s.h1 &&& s.h2))
  ⟨add32 t1 t2, s.h0, s.h1, s.h2, add32 s.h3 t1, s.h4, s.h5, s.h6⟩

/-- Modelled from the spec: the SHA2-256 compression of one 64-byte block into
the chaining value; the library is not under src/. -/
def block (d : State) (p : List Nat) : State :=
  let w := (extend 48 (beWords p).reverse).reverse
  let s := (K.zip w).foldl round d
  ⟨add32 d.h0 s.h0, add32 d.h1 s.h1, add32 d.h2 s.h2, add32 d.h3 s.h3,
   add32 d.h4 s.h4, add32 d.h5 s.h5, add32 d.h6 s.h6, add32 d.h7 s.h7⟩

/-- Modelled from the spec: the compression of the first `n` 64-byte blocks of
`p`, in order; the library is not under src/. -/
def blocks : Nat → State → List Nat → State
  | 0, d, _ => d
  | n + 1, d, p => blocks n (block d (p.take 64)) (p.drop 64)

/-- Modelled from the spec: the `k` low bytes of `n`, most significant first
(`binary.BigEndian.PutUint32` and `PutUint64`); the library is not under src/. -/
def be (n : Nat) : Nat → List Nat
  | 0 => []
  | k + 1 => (n >>> (8 * k)) % 256 :: be n k

/-- Modelled from the spec: the padding of SHA2-256 as `checkSum` of the
library (not under src/) writes it: the byte 0x80, zero bytes up to 56 modulo
64, then the message length in bits as a 64-bit big-endian number. -/
def pad (data : List Nat) : List Nat :=
  let len := data.length
  let t := if len % 64 < 56 then 56 - len % 64 else 64 + 56 - len % 64
  data ++ (0x80 :: List.replicate (t - 1) 0) ++ be ((len * 8) % 2 ^ 64) 8

/-- Modelled from the spec: the 32 bytes of a chaining value, each word
big-endian; the library is not under src/. -/
def State.bytes (d : State) : List Nat :=
  be d.h0 4 ++ be d.h1 4 ++ be d.h2 4 ++ be d.h3 4 ++
    be d.h4 4 ++ be d.h5 4 ++ be d.h6 4 ++ be d.h7 4

/-- Modelled from the spec: `sha256.Sum256`, the SHA2-256 digest (FIPS 180-4)
of the whole buffer; `crypto/sha256` is not under src/. -/
def Sum256 (data : List Nat) : List Nat :=
  let p := pad data
  (blocks (p.length / 64) init p).bytes

end sha256

/-! ## go-varint -/

namespace varint

/-- Modelled from the spec: the loop of `varint.PutUvarint` (unsigned LEB128),
bounded by the ten bytes a `uint64` can take; go-varint is not under src/. -/
def putLoop : Nat → Nat → List Nat
  | 0, _ => []
  | n + 1, x => if 0x80 ≤ x then (x % 256 ||| 0x80) :: putLoop n (x >>> 7) else [x % 256]

/-- Modelled from the spec: `varint.PutUvarint`, the unsigned LEB128 bytes of a
`uint64`; go-varint is not under src/. -/
def PutUvarint (x : Nat) : List Nat := putLoop 10 (x % 2 ^ 64)

/-- Errors of `varint.FromUvarint`. -/
inductive Error where
  | ErrOverflow
  | ErrUnderflow
  | ErrNotMinimal
deriving DecidableEq, Repr

/-- Modelled from the spec: the loop of `varint.FromUvarint` over the bytes
from index `i`, with the accumulated value `x` and shift `s`; go-varint is not
under src/. -/
def fromLoop : List Nat → Nat → Nat → Nat → Except Error (Nat × Nat)
  | [], _, _, _ => .error .ErrUnderflow
  | b :: rest, i, x, s =>
      if (i = 8 ∧ 0x80 ≤ b) ∨ 9 ≤ i then .error .ErrOverflow
      else if b < 0x80 then
        if b = 0 ∧ 0 < s then .error .ErrNotMinimal
        else .ok ((x ||| b <<< s) % 2 ^ 64, i + 1)
      else fromLoop rest (i + 1) ((x ||| (b &&& 0x7f) <<< s) % 2 ^ 64) (s + 7)

/-- Modelled from the spec: `varint.FromUvarint`, which reads one minimally
encoded unsigned LEB128 number of at most nine bytes and returns it with the
number of bytes read; go-varint is not under src/. -/
def FromUvarint (buf : List Nat) : Except Error (Nat × Nat) := fromLoop buf 0 0 0

end varint

/-! ## go-multihash -/

namespace mh

/-- The multicodec code of SHA2-256 (`mh.SHA2_256`). -/
def SHA2_256 : Nat := 0x12

/-- Errors of the multihash functions used here. -/
inductive Error where
  | ErrTooShort
  | varint (e : varint.Error)
  | digestTooLong
  | lengthGreaterThanBuffer
  | ErrInconsistentLen
  | ErrInvalidMultihash
deriving DecidableEq, Repr

/-- Modelled from the spec: `mh.Encode`, the self-describing hash envelope: the
hash function code and the digest length as varints, then the digest. It
returns no error. go-multihash is not under src/. -/
def Encode (buf : List Nat) (code : Nat) : Except Error (List Nat) :=
  .ok (varint.PutUvarint code ++ varint.PutUvarint buf.length ++ buf)

/-- Modelled from the spec: `readMultihashFromBuf` of go-multihash (not under
src/): the length of the multihash at the front of `buf`, its code and its
digest. -/
def readMultihashFromBuf (buf : List Nat) : Except Error (Nat × Nat × List Nat) :=
  if buf.length < 2 then .error .ErrTooShort
  else
    match varint.FromUvarint buf with
    | .error e => .error (.varint e)
    | .ok (code, n) =>
      let buf1 := buf.drop n
      match varint.FromUvarint buf1 with
      | .error e => .error (.varint e)
      | .ok (length, m) =>
        let buf2 := buf1.drop m
        if 2 ^ 31 - 1 < length then .error .digestTooLong
        else if buf2.length < length then .error .lengthGreaterThanBuffer
        else .ok ((buf.length - buf2.length) + length, code, buf2.take length)

/-- Modelled from the spec: `mh.MHFromBytes`, the multihash at the front of
`buf` with the number of bytes it takes; go-multihash is not under src/. -/
def MHFromBytes (buf : List Nat) : Except Error (Nat × List Nat) :=
  match readMultihashFromBuf buf with
  | .error e => .error e
  | .ok (nr, _, _) => .ok (nr, buf.take nr)

/-- A decoded multihash (`mh.DecodedMultihash`). -/
structure DecodedMultihash where
  Code : Nat
  Length : Nat
  Digest : List Nat
deriving DecidableEq, Repr

/-- Modelled from the spec: `mh.Decode`, which accepts a buffer that is exactly
one multihash; go-multihash is not under src/. -/
def Decode (buf : List Nat) : Except Error DecodedMultihash :=
  match readMultihashFromBuf buf with
  | .error e => .error e
  | .ok (rlen, code, hdig) =>
    if buf.length ≠ rlen then .error .ErrInconsistentLen
    else .ok ⟨code, hdig.length, hdig⟩

/-- Modelled from the spec: `mh.Cast`, which checks that a buffer is a
multihash; go-multihash is not under src/. -/
def Cast (buf : List Nat) : Except Error (List Nat) :=
  match Decode buf with
  | .error e => .error e
  | .ok _ => .ok buf

end mh

/-! ## go-base32, as go-multibase uses it -/

deriving instance DecidableEq for Except

namespace b32

/-- Modelled from the spec: the lowercase RFC 4648 base32 alphabet with which
go-multibase builds its `base32` encoding; the library is not under src/. -/
def encodeStd : List Char := "abcdefghijklmnopqrstuvwxyz234567".data

/-- Modelled from the spec: the 5-bit groups into which `Encoding.Encode` of
go-base32 (not under src/) unpacks the source, five bytes at a time; a final
quantum of 1, 2, 3 or 4 bytes gives 2, 4, 5 or 7 groups and, the encoding being
unpadded, nothing more. -/
def unpack : List Nat → List Nat
  | [] => []
  | [a] => [a >>> 3, (a <<< 2) &&& 0x1F]
  | [a, b] =>
      [a >>> 3, (a <<< 2) &&& 0x1F ||| (b >>> 6) &&& 0x1F, (b >>> 1) &&& 0x1F, (b <<< 4) &&& 0x1F]
  | [a, b, c] =>
      [a >>> 3, (a <<< 2) &&& 0x1F ||| (b >>> 6) &&& 0x1F, (b >>> 1) &&& 0x1F,
       (b <<< 4) &&& 0x1F ||| (c >>> 4) &&& 0x1F, (c <<< 1) &&& 0x1F]
  | [a, b, c, d] =>
      [a >>> 3, (a <<< 2) &&& 0x1F ||| (b >>> 6) &&& 0x1F, (b >>> 1) &&& 0x1F,
       (b <<< 4) &&& 0x1F ||| (c >>> 4) &&& 0x1F, (c <<< 1) &&& 0x1F ||| d >>> 7,
       (d >>> 2) &&& 0x1F, (d <<< 3) &&& 0x1F]
  | a :: b :: c :: d :: e :: rest =>
      [a >>> 3, (a <<< 2) &&& 0x1F ||| (b >>> 6) &&& 0x1F, (b >>> 1) &&& 0x1F,
       (b <<< 4) &&& 0x1F ||| (c >>> 4) &&& 0x1F, (c <<< 1) &&& 0x1F ||| d >>> 7,
       (d >>> 2) &&& 0x1F, (d <<< 3) &&& 0x1F ||| e >>> 5, e &&& 0x1F] ++ unpack rest

/-- Modelled from the spec: the character `enc.encode[b&31]` of a 5-bit group;
go-base32 is not under src/. -/
def encodeChar (v : Nat) : Char := encodeStd.getD (v &&& 31) 'a'

/-- Modelled from the spec: `EncodeToString` of the unpadded lowercase base32
encoding of go-multibase (not under src/). -/
def EncodeToString (src : List Nat) : String := String.mk ((unpack src).map encodeChar)

/-- Modelled from the spec: the decode map of the encoding, which go-base32
(not under src/) builds case-insensitively; `none` is its 0xFF entry. -/
def decodeMap (c : Char) : Option Nat :=
  let i := encodeStd.indexOf c.toLower
  if i < 32 then some i else none

/-- Modelled from the spec: the bytes into which `decode` of go-base32 (not
under src/) packs the 5-bit groups, eight at a time; a final quantum of 7, 5, 4
or 2 groups gives 4, 3, 2 or 1 bytes and one of any other length gives none. -/
def pack : List Nat → List Nat
  | v0 :: v1 :: v2 :: v3 :: v4 :: v5 :: v6 :: v7 :: rest =>
      [(v0 <<< 3 ||| v1 >>> 2) % 256, (v1 <<< 6 ||| v2 <<< 1 ||| v3 >>> 4) % 256,
       (v3 <<< 4 ||| v4 >>> 1) % 256, (v4 <<< 7 ||| v5 <<< 2 ||| v6 >>> 3) % 256,
       (v6 <<< 5 ||| v7) % 256] ++ pack rest
  | [v0, v1, v2, v3, v4, v5, v6] =>
      [(v0 <<< 3 ||| v1 >>> 2) % 256, (v1 <<< 6 ||| v2 <<< 1 ||| v3 >>> 4) % 256,
       (v3 <<< 4 ||| v4 >>> 1) % 256, (v4 <<< 7 ||| v5 <<< 2 ||| v6 >>> 3) % 256]
  | [v0, v1, v2, v3, v4] =>
      [(v0 <<< 3 ||| v1 >>> 2) % 256, (v1 <<< 6 ||| v2 <<< 1 ||| v3 >>> 4) % 256,
       (v3 <<< 4 ||| v4 >>> 1) % 256]
  | [v0, v1, v2, v3] =>
      [(v0 <<< 3 ||| v1 >>> 2) % 256, (v1 <<< 6 ||| v2 <<< 1 ||| v3 >>> 4) % 256]
  | [v0, v1] => [(v0 <<< 3 ||| v1 >>> 2) % 256]
  | _ => []

/-- Errors of the base32 decoder. -/
inductive Error where
  | CorruptInputError
deriving DecidableEq, Repr

/-- Modelled from the spec: `DecodeString` of the unpadded base32 encoding of
go-multibase (not under src/): line breaks are dropped, a character outside
the alphabet is an error, and the groups are packed into bytes. -/
def DecodeString (s : List Char) : Except Error (List Nat) :=
  match (s.filter (fun c => c != '\r' && c != '\n')).mapM decodeMap with
  | none => .error .CorruptInputError
  | some vs => .ok (pack vs)

end b32

/-! ## base58 (bitcoin alphabet), as go-multihash uses it -/

namespace b58

/-- Modelled from the spec: the bitcoin base58 alphabet; the base58 library is
not under src/. -/
def alphabet : List Char := "123456789ABCDEFGHJKLMNPQRSTUVWXYZabcdefghijkmnopqrstuvwxyz".data

/-- Modelled from the spec: the digits of `n` in base `b`, most significant
first, prepended to `acc`; `fuel` bounds the number of digits. The base58
library is not under src/. -/
def digits (b : Nat) : Nat → Nat → List Nat → List Nat
  | 0, _, acc => acc
  | fuel + 1, n, acc => if n = 0 then acc else digits b fuel (n / b) (n % b :: acc)

/-- Modelled from the spec: the number a list of digits in base `b` stands for,
most significant digit first; the base58 library is not under src/. -/
def value (b : Nat) (ds : List Nat) : Nat := ds.foldl (fun acc d => acc * b + d) 0

/-- Modelled from the spec: base58 encoding: one character 1 for every leading
zero byte, then the base58 digits of the big-endian number; the base58 library
is not under src/. -/
def Encode (bin : List Nat) : String :=
  let zeros := (bin.takeWhile (fun x => x == 0)).length
  String.mk (List.replicate zeros '1' ++
    (digits 58 (2 * bin.length) (value 256 bin) []).map (fun d => alphabet.getD d '1'))

/-- Errors of the base58 decoder. -/
inductive Error where
  | zeroLength
  | invalidDigit
deriving DecidableEq, Repr

/-- Modelled from the spec: the value of a base58 character, `none` for a
character outside the alphabet; the base58 library is not under src/. -/
def digit (c : Char) : Option Nat :=
  let i := alphabet.indexOf c
  if i < 58 then some i else none

/-- Modelled from the spec: base58 decoding: one zero byte for every leading
character 1, then the big-endian bytes of the number; the empty string and a
character outside the alphabet are errors. The base58 library is not under
src/. -/
def Decode (s : String) : Except Error (List Nat) :=
  if s.data = [] then .error .zeroLength
  else
    match s.data.mapM digit with
    | none => .error .invalidDigit
    | some ds =>
      let zeros := (ds.takeWhile (fun x => x == 0)).length
      .ok (List.replicate zeros 0 ++ digits 256 ds.length (value 58 ds) [])

end b58

/-- Modelled from the spec: `mh.FromB58String`, the multihash a base58 string
stands for; go-multihash is not under src/. -/
def mh.FromB58String (s : String) : Except mh.Error (List Nat) :=
  match b58.Decode s with
  | .error _ => .error .ErrInvalidMultihash
  | .ok b => mh.Cast b

/-! ## go-multibase -/

namespace mbase

/-- Errors of `mbase.Decode`. -/
inductive Error where
  | zeroLength
  | base32 (e : b32.Error)
  | other
deriving DecidableEq, Repr

/-- The decoders of go-multibase for the encodings other than `base32`
(character b): each takes the whole string, its first character included. They
are not under src/ and are left abstract. -/
abbrev Others := String → Except Error (List Nat)

/-- Modelled from the spec: `mbase.Encode(mbase.Base32, data)`: the character b
and the unpadded lowercase base32 text of the data; go-multibase is not under
src/. -/
def EncodeBase32 (data : List Nat) : String := "b" ++ b32.EncodeToString data

/-- Modelled from the spec: `mbase.Decode`, which reads the encoding off the
first character: the empty string is an error, b selects unpadded base32, and
every other character is handed to `others`. go-multibase is not under src/. -/
def Decode (others : Others) (data : String) : Except Error (List Nat) :=
  match data.data with
  | [] => .error .zeroLength
  | 'b' :: rest =>
    match b32.DecodeString rest with
    | .error e => .error (.base32 e)
    | .ok bytes => .ok bytes
  | _ => others data

end mbase

/-! ## go-cid -/

namespace cid

/-- A content identifier: go-cid keeps its binary form in a string. -/
structure Cid where
  str : List Nat
deriving DecidableEq, Repr

/-- Errors of the go-cid functions used here. -/
inductive Error where
  | ErrCidTooShort
  | invalidMultihash (e : mh.Error)
  | invalidCidV0Hash
  | multibase (e : mbase.Error)
  | notEnoughBytesV0
  | varint (e : varint.Error)
  | unexpectedVersion (vers : Nat)
  | trailingBytes
deriving DecidableEq, Repr

/-- The multicodec code of the raw codec (`cid.Raw`). -/
def Raw : Nat := 0x55

/-- The multicodec code of the dag-pb codec (`cid.DagProtobuf`). -/
def DagProtobuf : Nat := 0x70

/-- The undefined identifier (`cid.Undef`). -/
def Undef : Cid := ⟨[]⟩

/-- Modelled from the spec: `cid.NewCidV1`, the identifier envelope: the byte 1
for the version, the codec as a varint, then the multihash; go-cid is not
under src/. -/
def NewCidV1 (codecType : Nat) (mhash : List Nat) : Cid :=
  ⟨1 :: varint.PutUvarint codecType ++ mhash⟩

/-- Modelled from the spec: `Cid.Version`: a binary form of 34 bytes that
starts with 0x12 0x20 is version 0, every other is version 1; go-cid is not
under src/. -/
def Cid.Version (c : Cid) : Nat :=
  if c.str.length = 34 ∧ c.str.getD 0 0 = 18 ∧ c.str.getD 1 0 = 32 then 0 else 1

/-- Modelled from the spec: `Cid.Bytes`, the binary form; go-cid is not under
src/. -/
def Cid.Bytes (c : Cid) : List Nat := c.str

/-- Modelled from the spec: the number of bytes `varint.FromUvarint` reports,
0 when it fails; used where go-cid (not under src/) drops the error. -/
def skip (buf : List Nat) : Nat :=
  match varint.FromUvarint buf with
  | .ok (_, n) => n
  | .error _ => 0

/-- Modelled from the spec: `Cid.Hash`, the multihash of the identifier: the
whole binary form at version 0, what follows the version and the codec at
version 1; go-cid is not under src/. -/
def Cid.Hash (c : Cid) : List Nat :=
  if c.Version = 0 then c.Bytes
  else
    let n1 := skip c.Bytes
    let n2 := skip (c.Bytes.drop n1)
    c.Bytes.drop (n1 + n2)

/-- Modelled from the spec: `Cid.Type`, the codec of the identifier: dag-pb at
version 0, the varint that follows the version at version 1 (0 when it cannot
be read); go-cid is not under src/. -/
def Cid.Type (c : Cid) : Nat :=
  if c.Version = 0 then DagProtobuf
  else
    match varint.FromUvarint (c.Bytes.drop (skip c.Bytes)) with
    | .ok (codec, _) => codec
    | .error _ => 0

/-- Modelled from the spec: `Cid.String`, the canonical string: the base58
text of the multihash at version 0, the multibase base32 text of the binary
form at version 1; go-cid is not under src/. -/
def Cid.String (c : Cid) : String :=
  if c.Version = 0 then b58.Encode c.Hash else mbase.EncodeBase32 c.Bytes

/-- Modelled from the spec: `tryNewCidV0` of go-cid (not under src/): a
version 0 identifier is a SHA2-256 multihash of 32 bytes. -/
def tryNewCidV0 (mhash : List Nat) : Except Error Cid :=
  match mh.Decode mhash with
  | .error e => .error (.invalidMultihash e)
  | .ok dec =>
    if dec.Code ≠ mh.SHA2_256 ∨ dec.Length ≠ 32 then .error .invalidCidV0Hash
    else .ok ⟨mhash⟩

/-- Modelled from the spec: `cid.CidFromBytes`, which reads one identifier off
the front of a buffer and returns it with the number of bytes it takes: a
buffer that starts with 0x12 0x20 holds a version 0 identifier of 34 bytes,
any other holds the version (which must be 1), the codec and a multihash.
go-cid is not under src/. -/
def CidFromBytes (data : List Nat) : Except Error (Nat × Cid) :=
  if 2 < data.length ∧ data.getD 0 0 = mh.SHA2_256 ∧ data.getD 1 0 = 32 then
    if data.length < 34 then .error .notEnoughBytesV0
    else
      match mh.Cast (data.take 34) with
      | .error e => .error (.invalidMultihash e)
      | .ok h => .ok (34, ⟨h⟩)
  else
    match varint.FromUvarint data with
    | .error e => .error (.varint e)
    | .ok (vers, n) =>
      if vers ≠ 1 then .error (.unexpectedVersion vers)
      else
        match varint.FromUvarint (data.drop n) with
        | .error e => .error (.varint e)
        | .ok (_, cn) =>
          match mh.MHFromBytes (data.drop (n + cn)) with
          | .error e => .error (.invalidMultihash e)
          | .ok (mhnr, _) =>
            let l := n + cn + mhnr
            .ok (l, ⟨data.take l⟩)

/-- Modelled from the spec: `cid.Cast`, which accepts a buffer that is exactly
one identifier; go-cid is not under src/. -/
def Cast (data : List Nat) : Except Error Cid :=
  match CidFromBytes data with
  | .error e => .error e
  | .ok (nr, c) => if nr ≠ data.length then .error .trailingBytes else .ok c

/-- Modelled from the spec: `cid.Decode`, the parser of identifier strings: a
string of fewer than two bytes is too short; one of 46 bytes that starts with
Qm is read as base58 and must be a version 0 identifier; any other is read as
multibase and its bytes must be exactly one identifier. go-cid is not under
src/. -/
def Decode (others : mbase.Others) (v : String) : Except Error Cid :=
  if v.utf8ByteSize < 2 then .error .ErrCidTooShort
  else if v.utf8ByteSize = 46 ∧ v.data.take 2 = ['Q', 'm'] then
    match mh.FromB58String v with
    | .error e => .error (.invalidMultihash e)
    | .ok hash => tryNewCidV0 hash
  else
    match mbase.Decode others v with
    | .error e => .error (.multibase e)
    | .ok data => Cast data

end cid

/-! ## net/http and strconv -/

namespace http

/-- The body a handler writes: the line of `http.Error`, the bytes `io.Copy`
copies, or the object `json.NewEncoder(w).Encode` is given, as its fields. -/
inductive Body where
  | text (s : String)
  | bytes (b : List Nat)
  | json (fields : List (String × String))
deriving DecidableEq, Repr

/-- The header map of a response, one value a key. -/
structure Header where
  entries : List (String × String)
deriving DecidableEq, Repr

/-- Modelled from the spec: `Header.Set`, which replaces the value of a key;
net/http is not under src/. -/
def Header.Set (h : Header) (key value : String) : Header :=
  ⟨h.entries.filter (fun p => p.1 != key) ++ [(key, value)]⟩

/-- Modelled from the spec: `Header.Get`, the value of a key and the empty
string when the key is absent; net/http is not under src/. -/
def Header.Get (h : Header) (key : String) : String :=
  match h.entries.find? (fun p => p.1 == key) with
  | some p => p.2
  | none => ""

/-- What a handler leaves in its `http.ResponseWriter`. -/
structure Response where
  status : Nat
  header : Header
  body : Body
deriving DecidableEq, Repr

def StatusOK : Nat := 200
def StatusCreated : Nat := 201
def StatusBadRequest : Nat := 400
def StatusNotFound : Nat := 404
def StatusInternalServerError : Nat := 500
def StatusBadGateway : Nat := 502

/-- Modelled from the spec: `http.Error` on a fresh response: a plain-text
reply with the given status, whose body is the message and a line break;
net/http is not under src/. -/
def Error (error : String) (code : Nat) : Response :=
  ⟨code,
   ((Header.mk []).Set "Content-Type" "text/plain; charset=utf-8").Set
      "X-Content-Type-Options" "nosniff",
   .text (error ++ "\n")⟩

end http

/-- Modelled from the spec: `strconv.FormatInt(i, 10)`, the decimal rendering
of an `int64`; strconv is not under src/. -/
def strconv.FormatInt (i : Int) : String := toString i

/-! ## minio-go -/

namespace minio

/-- The error response of the object store (`minio.ErrorResponse`), of which
the handlers read the code. -/
structure ErrorResponse where
  Code : String
deriving DecidableEq, Repr

/-- A Go `error` value as the storage client returns it: an error response of
the object store, or any other error. -/
inductive GoError where
  | response (r : ErrorResponse)
  | other (msg : String)
deriving DecidableEq, Repr

/-- Modelled from the spec: `minio.ToErrorResponse`, the error response an
error holds and the zero value for an error of another type; minio-go is not
under src/. -/
def ToErrorResponse : GoError → ErrorResponse
  | .response r => r
  | .other _ => ⟨""⟩

/-- The metadata of a stored object (`minio.ObjectInfo`), of which the handlers
read the size and the content type. -/
structure ObjectInfo where
  Size : Int
  ContentType : String
deriving DecidableEq, Repr

/-- An opened object (`*minio.Object`): what `Stat` answers and the bytes a
reader gets from it. -/
structure Object where
  Stat : Except GoError ObjectInfo
  content : List Nat
deriving DecidableEq, Repr

/-- The storage client (`*minio.Client`) over a store of type `σ`: `GetObject`
by bucket and key; `PutObject` by bucket, key, bytes, size and content type,
which gives the store after the call and the error, if any. The client is
supplied from outside and is left abstract. -/
structure Client (σ : Type) where
  GetObject : σ → String → String → Except GoError Object
  PutObject : σ → String → String → List Nat → Int → String → σ × Option GoError

end minio

/-! ## main.go -/

/-- A call the handlers make on the storage client; the reads of an opened
object by `io.Copy` and its `Close` are not listed. -/
inductive Call where
  | GetObject (bucket key : String)
  | Stat
  | PutObject (bucket key : String) (data : List Nat) (size : Int) (contentType : String)
deriving DecidableEq, Repr

/-- What handling one request gives: the response, the storage calls made, in
order, and the store afterwards. -/
structure Outcome (σ : Type) where
  resp : http.Response
  calls : List Call
  store : σ

/-- The uploaded file part (`multipart.File`): what `io.ReadAll` gives. -/
structure File where
  ReadAll : Except minio.GoError (List Nat)
deriving DecidableEq, Repr

/-- The header of the uploaded part (`*multipart.FileHeader`): the value
`header.Header.Get("Content-Type")` gives, empty when none was declared. -/
structure FileHeader where
  ContentType : String
deriving DecidableEq, Repr

/-- An upload request: what `r.FormFile` answers for a field name. -/
structure Request where
  FormFile : String → Except minio.GoError (File × FileHeader)

/-- The function `computeCID` of main.go: a CIDv1 with raw codec over the
SHA2-256 multihash of the data. -/
def computeCID (data : List Nat) : Except mh.Error cid.Cid :=
  let hash := sha256.Sum256 data
  match mh.Encode hash mh.SHA2_256 with
  | .error err => .error err
  | .ok multihash => .ok (cid.NewCidV1 cid.Raw multihash)

/-- The handler `handleIPFS` of main.go for `GET /ipfs/{cid}`, on the path
value `cidStr`. -/
def handleIPFS {σ : Type} (others : mbase.Others) (s3 : minio.Client σ) (bucket : String)
    (st : σ) (cidStr : String) : Outcome σ :=
  match cid.Decode others cidStr with
  | .error _ => ⟨http.Error "invalid CID" http.StatusBadRequest, [], st⟩
  | .ok _ =>
    match s3.GetObject st bucket cidStr with
    | .error _ =>
      ⟨http.Error "storage error" http.StatusBadGateway, [.GetObject bucket cidStr], st⟩
    | .ok obj =>
      match obj.Stat with
      | .error err =>
        let resp := minio.ToErrorResponse err
        if resp.Code = "NoSuchKey" then
          ⟨http.Error "not found" http.StatusNotFound, [.GetObject bucket cidStr, .Stat], st⟩
        else
          ⟨http.Error "storage error" http.StatusBadGateway,
            [.GetObject bucket cidStr, .Stat], st⟩
      | .ok info =>
        let contentType :=
          if info.ContentType = "" then "application/octet-stream" else info.ContentType
        let h := (((((http.Header.mk []).Set "Content-Type" contentType).Set
          "Content-Length" (strconv.FormatInt info.Size)).Set
          "Cache-Control" "public, max-age=29030400, immutable").Set
          "X-Ipfs-Path" ("/ipfs/" ++ cidStr))
        ⟨⟨http.StatusOK, h, .bytes obj.content⟩, [.GetObject bucket cidStr, .Stat], st⟩

/-- The handler `handleUpload` of main.go for `POST /upload`. -/
def handleUpload {σ : Type} (s3 : minio.Client σ) (bucket : String) (st : σ)
    (r : Request) : Outcome σ :=
  match r.FormFile "file" with
  | .error _ => ⟨http.Error "missing file field" http.StatusBadRequest, [], st⟩
  | .ok (file, header) =>
    match file.ReadAll with
    | .error _ => ⟨http.Error "failed to read file" http.StatusInternalServerError, [], st⟩
    | .ok data =>
      match computeCID data with
      | .error _ =>
        ⟨http.Error "failed to compute CID" http.StatusInternalServerError, [], st⟩
      | .ok c =>
        let cidStr := c.String
        let contentType :=
          if header.ContentType = "" then "application/octet-stream" else header.ContentType
        match s3.PutObject st bucket cidStr data (data.length : Int) contentType with
        | (st1, some _) =>
          ⟨http.Error "storage error" http.StatusBadGateway,
            [.PutObject bucket cidStr data (data.length : Int) contentType], st1⟩
        | (st1, none) =>
          ⟨⟨http.StatusCreated, (http.Header.mk []).Set "Content-Type" "application/json",
             .json [("cid", cidStr), ("url", "/ipfs/" ++ cidStr)]⟩,
            [.PutObject bucket cidStr data (data.length : Int) contentType], st1⟩

/-! ## Notions the statements use -/

/-- The binary form of a CIDv1 with raw codec over a SHA2-256 multihash. -/
def cid.rawSha256 (digest : List Nat) : cid.Cid := ⟨1 :: 0x55 :: 0x12 :: 0x20 :: digest⟩

/-- An identifier is CIDv1 / raw / SHA2-256 when its binary form is the four
bytes 0x01 0x55 0x12 0x20 and a digest of 32 bytes. -/
def cid.IsRawSha256 (c : cid.Cid) : Prop :=
  c.str.length = 36 ∧ c.str.take 4 = [0x01, 0x55, 0x12, 0x20]

instance (c : cid.Cid) : Decidable (cid.IsRawSha256 c) := by
  unfold cid.IsRawSha256; infer_instance

namespace rfc4648

/-- The eight bits of a byte, most significant first. -/
def bits (b : Nat) : List Nat :=
  [b / 128 % 2, b / 64 % 2, b / 32 % 2, b / 16 % 2, b / 8 % 2, b / 4 % 2, b / 2 % 2, b % 2]

/-- The 5-bit groups of a bit string, from left to right; a final group of
fewer than five bits is filled with zero bits on the right. -/
def groups : List Nat → List Nat
  | b0 :: b1 :: b2 :: b3 :: b4 :: rest =>
      (b0 * 16 + b1 * 8 + b2 * 4 + b3 * 2 + b4) :: groups rest
  | [b0, b1, b2, b3] => [b0 * 16 + b1 * 8 + b2 * 4 + b3 * 2]
  | [b0, b1, b2] => [b0 * 16 + b1 * 8 + b2 * 4]
  | [b0, b1] => [b0 * 16 + b1 * 8]
  | [b0] => [b0 * 16]
  | [] => []

/-- The unpadded lowercase base32 text of a byte string as RFC 4648 section 6
words it: the bits of the bytes, in order, are cut into 5-bit groups, the last
one filled with zero bits, and each group is written as the letter of the
alphabet a to z, 2 to 7 at its index. This is the reading of the words
base32 encoding against which `b32.EncodeToString` is compared. -/
def base32 (data : List Nat) : String :=
  String.mk ((groups (data.flatMap bits)).map (fun v => b32.encodeStd.getD v 'a'))

end rfc4648

/-- Modelled from the spec: `GetObject` of minio-go (not under src/) opens the
object lazily: it fails only when the bucket or the object name is refused and
never reports the key as absent (code NoSuchKey); absence shows when the
opened object is read or its metadata is asked for with `Stat`. -/
def minio.LazyGetObject {σ : Type} (s3 : minio.Client σ) : Prop :=
  ∀ (st : σ) (bucket key : String) (e : minio.GoError),
    s3.GetObject st bucket key = .error e → (minio.ToErrorResponse e).Code ≠ "NoSuchKey"

/-- The failure the storage client reports while an object is retrieved, at
whichever step it reports it: the error of `GetObject`, or else the error of
`Stat` on the opened object; `none` when both succeed. -/
def storageFailure {σ : Type} (s3 : minio.Client σ) (st : σ) (bucket key : String) :
    Option minio.GoError :=
  match s3.GetObject st bucket key with
  | .error e => some e
  | .ok obj =>
    match obj.Stat with
    | .error e => some e
    | .ok _ => none

/-- The store property of C2: a get after a successful put of the same key
returns what was put. -/
def GetAfterPut {σ : Type} (s3 : minio.Client σ) : Prop :=
  ∀ (st st1 : σ) (bucket key : String) (data : List Nat) (size : Int) (contentType : String),
    s3.PutObject st bucket key data size contentType = (st1, none) →
    ∃ obj, s3.GetObject st1 bucket key = .ok obj ∧
      obj.Stat = .ok ⟨size, contentType⟩ ∧ obj.content = data

/-- Go's `strings.HasPrefix` on a text. -/
def startsWith (s p : String) : Bool := p.data.isPrefixOf s.data

/-! ## Values at which the statements are instantiated -/

/-- A stand-in for the multibase decoders left abstract, which knows no
encoding and rejects every string handed to it. -/
def noOthers : mbase.Others := fun _ => .error .other

/-- An object as the in-memory store keeps it. -/
structure Stored where
  bucket : String
  key : String
  data : List Nat
  size : Int
  contentType : String
deriving DecidableEq, Repr

/-- An in-memory object store behind the client interface: `PutObject` adds
the object in front, `GetObject` opens lazily, so that an absent key shows as a
`NoSuchKey` error response of `Stat`. -/
def memClient : minio.Client (List Stored) where
  GetObject st bucket key :=
    match st.find? (fun o => o.bucket == bucket && o.key == key) with
    | some o => .ok ⟨.ok ⟨o.size, o.contentType⟩, o.data⟩
    | none => .ok ⟨.error (.response ⟨"NoSuchKey"⟩), []⟩
  PutObject st bucket key data size contentType :=
    (⟨bucket, key, data, size, contentType⟩ :: st, none)

/-- A storage client that opens lazily and can be told to fail: `GetObject`
refuses a bucket name of fewer than three bytes with code InvalidBucketName and
otherwise opens the object; `Stat` then reports the error the store holds, if
any, and an empty object if none. -/
def faultyClient : minio.Client (Option minio.GoError) where
  GetObject st bucket _ :=
    if bucket.utf8ByteSize < 3 then .error (.response ⟨"InvalidBucketName"⟩)
    else
      match st with
      | some e => .ok ⟨.error e, []⟩
      | none => .ok ⟨.ok ⟨0, ""⟩, []⟩
  PutObject st _ _ _ _ _ := (st, none)

/-- The three bytes of the text abc, the first test message of FIPS 180-4. -/
def abc : List Nat := [97, 98, 99]

/-- The 56 bytes of the two-block test message of FIPS 180-4,
abcdbcdecdefdefgefghfghighijhijkijkljklmklmnlmnomnopnopq. -/
def abcdbcde : List Nat :=
  [97, 98, 99, 100, 98, 99, 100, 101, 99, 100, 101, 102, 100, 101, 102, 103,
   101, 102, 103, 104, 102, 103, 104, 105, 103, 104, 105, 106, 104, 105, 106, 107,
   105, 106, 107, 108, 106, 107, 108, 109, 107, 108, 109, 110, 108, 109, 110, 111,
   109, 110, 111, 112, 110, 111, 112, 113]

/-- The 11 bytes of the text hello world. -/
def helloWorld : List Nat := [104, 101, 108, 108, 111, 32, 119, 111, 114, 108, 100]

/-- An upload request whose part `file` has the given bytes and declared
content type. -/
def uploadOf (data : List Nat) (contentType : String) : Request where
  FormFile name :=
    if name = "file" then .ok (⟨.ok data⟩, ⟨contentType⟩) else .error (.other "http: no such file")

/-- An upload request whose part `file` is there and cannot be read. -/
def unreadableUpload : Request where
  FormFile name :=
    if name = "file" then .ok (⟨.error (.other "unexpected EOF")⟩, ⟨""⟩)
    else .error (.other "http: no such file")

/-- The canonical string of the identifier of the bytes hello world. -/
def helloCid : String := "bafkreifzjut3te2nhyekklss27nh3k72ysco7y32koao5eei66wof36n5e"

/-- The string `helloCid` without its last character. -/
def cutCid : String := "bafkreifzjut3te2nhyekklss27nh3k72ysco7y32koao5eei66wof36n5"

/-- A well-formed CIDv1 with codec dag-pb, in base32. -/
def dagPbCid : String := "bafybeigdyrzt5sfp7udm7hu76uh7y26nf3efuylqabf3oclgtqy55fbzdi"

/-- The binary form of `dagPbCid`. -/
def dagPbBytes : List Nat :=
  [0x01, 0x70, 0x12, 0x20, 195, 196, 115, 62, 200, 175, 253, 6, 207, 158, 159, 245, 15, 252, 107,
   205, 46, 200, 90, 97, 112, 0, 75, 183, 9, 102, 156, 49, 222, 148, 57, 26]

/-- A well-formed CIDv0, in base58. -/
def v0Cid : String := "QmbWqxBEKC3P8tqsKc98xmWNzrzDtRLMiMPL8wBuTGsMnR"

/-- The binary form of `v0Cid`. -/
def v0Bytes : List Nat :=
  [0x12, 0x20, 195, 196, 115, 62, 200, 175, 253, 6, 207, 158, 159, 245, 15, 252, 107,
   205, 46, 200, 90, 97, 112, 0, 75, 183, 9, 102, 156, 49, 222, 148, 57, 26]

/-- The in-memory store holding the bytes hello world, declared text/plain,
under their identifier. -/
def helloStore : List Stored := [⟨"ipfs", helloCid, helloWorld, 11, "text/plain"⟩]

/-! ## Lemmas: base32 -/

set_option maxRecDepth 100000

namespace b32

theorem shr3 : ∀ a < 256, (a >>> 3) &&& 31 = a / 8 := by decide!
theorem shl2 : ∀ a < 256, (a <<< 2) &&& 31 = a % 8 * 4 := by decide!
theorem shr6 : ∀ b < 256, (b >>> 6) &&& 31 = b / 64 := by decide!
theorem shr1 : ∀ b < 256, (b >>> 1) &&& 31 = b / 2 % 32 := by decide!
theorem shl4 : ∀ b < 256, (b <<< 4) &&& 31 = b % 2 * 16 := by decide!
theorem shr4 : ∀ c < 256, (c >>> 4) &&& 31 = c / 16 := by decide!
theorem shl1 : ∀ c < 256, (c <<< 1) &&& 31 = c % 16 * 2 := by decide!
theorem shr7 : ∀ d < 256, d >>> 7 = d / 128 := by decide!
theorem shr2 : ∀ d < 256, (d >>> 2) &&& 31 = d / 4 % 32 := by decide!
theorem shl3 : ∀ d < 256, (d <<< 3) &&& 31 = d % 4 * 8 := by decide!
theorem shr5 : ∀ e < 256, e >>> 5 = e / 32 := by decide!
theorem and31 : ∀ e < 256, e &&& 31 = e % 32 := by decide!
theorem idem32 : ∀ v < 32, v &&& 31 = v := by decide!
theorem or_lt32 : ∀ x < 32, ∀ y < 32, x &&& y = 0 → (x ||| y) &&& 31 = x + y := by decide!
theorem and_disjoint4 : ∀ k < 8, ∀ y < 4, (k * 4) &&& y = 0 := by decide!
theorem and_disjoint16 : ∀ k < 2, ∀ y < 16, (k * 16) &&& y = 0 := by decide!
theorem and_disjoint2 : ∀ k < 16, ∀ y < 2, (k * 2) &&& y = 0 := by decide!
theorem and_disjoint8 : ∀ k < 4, ∀ y < 8, (k * 8) &&& y = 0 := by decide!

/-- The eight 5-bit groups of a full quantum, as numbers. -/
theorem groups5 (a b c d e : Nat) (ha : a < 256) (hb : b < 256) (hc : c < 256)
    (hd : d < 256) (he : e < 256) :
    (a >>> 3) &&& 31 = a / 8 ∧
    ((a <<< 2) &&& 0x1F ||| (b >>> 6) &&& 0x1F) &&& 31 = a % 8 * 4 + b / 64 ∧
    ((b >>> 1) &&& 0x1F) &&& 31 = b / 2 % 32 ∧
    ((b <<< 4) &&& 0x1F ||| (c >>> 4) &&& 0x1F) &&& 31 = b % 2 * 16 + c / 16 ∧
    ((c <<< 1) &&& 0x1F ||| d >>> 7) &&& 31 = c % 16 * 2 + d / 128 ∧
    ((d >>> 2) &&& 0x1F) &&& 31 = d / 4 % 32 ∧
    ((d <<< 3) &&& 0x1F ||| e >>> 5) &&& 31 = d % 4 * 8 + e / 32 ∧
    (e &&& 0x1F) &&& 31 = e % 32 := by
  rw [shr3 a ha, shl2 a ha, shr6 b hb, shr1 b hb, shl4 b hb, shr4 c hc, shl1 c hc, shr7 d hd,
    shr2 d hd, shl3 d hd, shr5 e he, and31 e he]
  refine ⟨rfl, ?_, ?_, ?_, ?_, ?_, ?_, ?_⟩
  · exact or_lt32 _ (by omega) _ (by omega) (and_disjoint4 _ (by omega) _ (by omega))
  · exact idem32 _ (by omega)
  · exact or_lt32 _ (by omega) _ (by omega) (and_disjoint16 _ (by omega) _ (by omega))
  · exact or_lt32 _ (by omega) _ (by omega) (and_disjoint2 _ (by omega) _ (by omega))
  · exact idem32 _ (by omega)
  · exact or_lt32 _ (by omega) _ (by omega) (and_disjoint8 _ (by omega) _ (by omega))
  · exact idem32 _ (by omega)

theorem pk0 : ∀ x < 32, ∀ y < 32, (x <<< 3 ||| y >>> 2) % 256 = x * 8 + y / 4 := by decide!
theorem pk2 : ∀ x < 32, ∀ y < 32, (x <<< 4 ||| y >>> 1) % 256 = x % 16 * 16 + y / 2 := by decide!
theorem pk4 : ∀ x < 32, ∀ y < 32, (x <<< 5 ||| y) % 256 = x % 8 * 32 + y := by decide!
theorem pk1a : ∀ x < 32, ∀ y < 32, x <<< 6 ||| y <<< 1 = 2 ^ 1 * (x * 32 + y) := by decide!
theorem pk3a : ∀ x < 32, ∀ y < 32, x <<< 7 ||| y <<< 2 = 2 ^ 2 * (x * 32 + y) := by decide!

theorem pk1 (x y z : Nat) (hx : x < 32) (hy : y < 32) (hz : z < 32) :
    (x <<< 6 ||| y <<< 1 ||| z >>> 4) % 256 = (x % 4 * 64 + y * 2 + z / 16) % 256 := by
  have hz4 : z / 2 ^ 4 < 2 ^ 1 := by omega
  rw [pk1a x hx y hy, Nat.shiftRight_eq_div_pow, ← Nat.mul_add_lt_is_or hz4]
  omega

theorem pk3 (x y z : Nat) (hx : x < 32) (hy : y < 32) (hz : z < 32) :
    (x <<< 7 ||| y <<< 2 ||| z >>> 3) % 256 = (x % 2 * 128 + y * 4 + z / 8) % 256 := by
  have hz3 : z / 2 ^ 3 < 2 ^ 2 := by omega
  rw [pk3a x hx y hy, Nat.shiftRight_eq_div_pow, ← Nat.mul_add_lt_is_or hz3]
  omega

/-- Packing the groups of a full quantum gives its five bytes back. -/
theorem quantum5 (a b c d e : Nat) (ha : a < 256) (hb : b < 256) (hc : c < 256)
    (hd : d < 256) (he : e < 256) :
    let v0 := (a >>> 3) &&& 31
    let v1 := ((a <<< 2) &&& 0x1F ||| (b >>> 6) &&& 0x1F) &&& 31
    let v2 := ((b >>> 1) &&& 0x1F) &&& 31
    let v3 := ((b <<< 4) &&& 0x1F ||| (c >>> 4) &&& 0x1F) &&& 31
    let v4 := ((c <<< 1) &&& 0x1F ||| d >>> 7) &&& 31
    let v5 := ((d >>> 2) &&& 0x1F) &&& 31
    let v6 := ((d <<< 3) &&& 0x1F ||| e >>> 5) &&& 31
    let v7 := (e &&& 0x1F) &&& 31
    (v0 <<< 3 ||| v1 >>> 2) % 256 = a ∧ (v1 <<< 6 ||| v2 <<< 1 ||| v3 >>> 4) % 256 = b ∧
    (v3 <<< 4 ||| v4 >>> 1) % 256 = c ∧ (v4 <<< 7 ||| v5 <<< 2 ||| v6 >>> 3) % 256 = d ∧
    (v6 <<< 5 ||| v7) % 256 = e := by
  obtain ⟨h0, h1, h2, h3, h4, h5, h6, h7⟩ := groups5 a b c d e ha hb hc hd he
  simp only [h0, h1, h2, h3, h4, h5, h6, h7]
  refine ⟨?_, ?_, ?_, ?_, ?_⟩
  · rw [pk0 _ (by omega) _ (by omega)]; omega
  · rw [pk1 _ _ _ (by omega) (by omega) (by omega)]; omega
  · rw [pk2 _ (by omega) _ (by omega)]; omega
  · rw [pk3 _ _ _ (by omega) (by omega) (by omega)]; omega
  · rw [pk4 _ (by omega) _ (by omega)]; omega

/-- Packing the 5-bit groups of any byte string gives the bytes back. -/
theorem pack_unpack : ∀ (bs : List Nat), (∀ x ∈ bs, x < 256) →
    pack ((unpack bs).map (fun v => v &&& 31)) = bs
  | [], _ => by simp [unpack, pack]
  | [a], h => by
      have ha : a < 256 := h a (by simp)
      have q := quantum5 a 0 0 0 0 ha (by decide) (by decide) (by decide) (by decide)
      simp only [unpack, List.map_cons, List.map_nil, pack]
      simpa using q.1
  | [a, b], h => by
      have ha : a < 256 := h a (by simp)
      have hb : b < 256 := h b (by simp)
      have q := quantum5 a b 0 0 0 ha hb (by decide) (by decide) (by decide)
      simp only [unpack, List.map_cons, List.map_nil, pack]
      simp at q ⊢
      exact ⟨q.1, q.2.1⟩
  | [a, b, c], h => by
      have ha : a < 256 := h a (by simp)
      have hb : b < 256 := h b (by simp)
      have hc : c < 256 := h c (by simp)
      have q := quantum5 a b c 0 0 ha hb hc (by decide) (by decide)
      simp only [unpack, List.map_cons, List.map_nil, pack]
      simp at q ⊢
      exact ⟨q.1, q.2.1, q.2.2.1⟩
  | [a, b, c, d], h => by
      have ha : a < 256 := h a (by simp)
      have hb : b < 256 := h b (by simp)
      have hc : c < 256 := h c (by simp)
      have hd : d < 256 := h d (by simp)
      have q := quantum5 a b c d 0 ha hb hc hd (by decide)
      simp only [unpack, List.map_cons, List.map_nil, pack]
      simp at q ⊢
      exact ⟨q.1, q.2.1, q.2.2.1, q.2.2.2.1⟩
  | a :: b :: c :: d :: e :: rest, h => by
      have ha : a < 256 := h a (by simp)
      have hb : b < 256 := h b (by simp)
      have hc : c < 256 := h c (by simp)
      have hd : d < 256 := h d (by simp)
      have he : e < 256 := h e (by simp)
      have ih := pack_unpack rest (fun x hx => h x (by simp [hx]))
      obtain ⟨q0, q1, q2, q3, q4⟩ := quantum5 a b c d e ha hb hc hd he
      simp only [unpack, List.map_cons, List.map_append, List.map_nil, List.cons_append,
        List.nil_append, pack]
      rw [q0, q1, q2, q3, q4]
      simp only [List.append_eq, List.nil_append, ih]

theorem alphabet_facts : ∀ i < 32,
    decodeMap (encodeStd.getD i 'a') = some i ∧
    ((encodeStd.getD i 'a') != '\r' && (encodeStd.getD i 'a') != '\n') = true ∧
    (encodeStd.getD i 'a').utf8Size = 1 := by decide!

theorem encodeChar_facts (v : Nat) :
    decodeMap (encodeChar v) = some (v &&& 31) ∧
    ((encodeChar v) != '\r' && (encodeChar v) != '\n') = true ∧
    (encodeChar v).utf8Size = 1 :=
  alphabet_facts (v &&& 31) (Nat.and_lt_two_pow v (n := 5) (by decide))

theorem mapM_decodeMap (vs : List Nat) :
    (vs.map encodeChar).mapM decodeMap = some (vs.map (fun v => v &&& 31)) := by
  induction vs with
  | nil => rfl
  | cons v vs ih =>
    rw [List.map_cons, List.mapM_cons, ih, (encodeChar_facts v).1]
    rfl

theorem filter_encodeChar (vs : List Nat) :
    (vs.map encodeChar).filter (fun c => c != '\r' && c != '\n') = vs.map encodeChar := by
  rw [List.filter_eq_self]
  intro c hc
  obtain ⟨v, -, rfl⟩ := List.mem_map.1 hc
  exact (encodeChar_facts v).2.1

theorem utf8Len_encodeChar (vs : List Nat) :
    String.utf8Len (vs.map encodeChar) = vs.length := by
  induction vs with
  | nil => rfl
  | cons v vs ih => simp [ih, (encodeChar_facts v).2.2]

/-- The number of characters of the unpadded encoding. -/
theorem unpack_length : ∀ (bs : List Nat), (unpack bs).length = (bs.length * 8 + 4) / 5
  | [] => rfl
  | [_] => by simp [unpack]
  | [_, _] => by simp [unpack]
  | [_, _, _] => by simp [unpack]
  | [_, _, _, _] => by simp [unpack]
  | _ :: _ :: _ :: _ :: _ :: rest => by
      have ih := unpack_length rest
      simp only [unpack, List.length_append, List.length_cons, List.length_nil, ih]
      omega

/-- Decoding the base32 text of a byte string gives the bytes back. -/
theorem DecodeString_EncodeToString (bs : List Nat) (h : ∀ x ∈ bs, x < 256) :
    DecodeString (EncodeToString bs).data = .ok bs := by
  simp only [DecodeString, EncodeToString, filter_encodeChar, mapM_decodeMap, pack_unpack bs h]

end b32

/-! ## Lemmas: the base32 encoder against RFC 4648 -/

theorem b32.group_arith (a b c d e : Nat) (ha : a < 256) (hb : b < 256) (hc : c < 256)
    (hd : d < 256) (he : e < 256) :
    a / 8 = a / 128 % 2 * 16 + a / 64 % 2 * 8 + a / 32 % 2 * 4 + a / 16 % 2 * 2 + a / 8 % 2 ∧
    a % 8 * 4 + b / 64 = a / 4 % 2 * 16 + a / 2 % 2 * 8 + a % 2 * 4 + b / 128 % 2 * 2 + b / 64 % 2 ∧
    b / 2 % 32 = b / 32 % 2 * 16 + b / 16 % 2 * 8 + b / 8 % 2 * 4 + b / 4 % 2 * 2 + b / 2 % 2 ∧
    b % 2 * 16 + c / 16 =
      b % 2 * 16 + c / 128 % 2 * 8 + c / 64 % 2 * 4 + c / 32 % 2 * 2 + c / 16 % 2 ∧
    c % 16 * 2 + d / 128 =
      c / 8 % 2 * 16 + c / 4 % 2 * 8 + c / 2 % 2 * 4 + c % 2 * 2 + d / 128 % 2 ∧
    d / 4 % 32 = d / 64 % 2 * 16 + d / 32 % 2 * 8 + d / 16 % 2 * 4 + d / 8 % 2 * 2 + d / 4 % 2 ∧
    d % 4 * 8 + e / 32 =
      d / 2 % 2 * 16 + d % 2 * 8 + e / 128 % 2 * 4 + e / 64 % 2 * 2 + e / 32 % 2 ∧
    e % 32 = e / 16 % 2 * 16 + e / 8 % 2 * 8 + e / 4 % 2 * 4 + e / 2 % 2 * 2 + e % 2 := by
  refine ⟨?_, ?_, ?_, ?_, ?_, ?_, ?_, ?_⟩ <;> omega

theorem b32.unpack_eq_groups : ∀ (bs : List Nat), (∀ x ∈ bs, x < 256) →
    (b32.unpack bs).map b32.encodeChar =
      (rfc4648.groups (bs.flatMap rfc4648.bits)).map (fun v => b32.encodeStd.getD v 'a')
  | [], _ => rfl
  | [a], h => by
      have ha : a < 256 := h a (by simp)
      have q := b32.groups5 a 0 0 0 0 ha (by decide) (by decide) (by decide) (by decide)
      have r := b32.group_arith a 0 0 0 0 ha (by decide) (by decide) (by decide) (by decide)
      simp only [b32.unpack, List.map_cons, List.map_nil, List.flatMap_cons, List.flatMap_nil,
        rfc4648.bits, rfc4648.groups, List.cons_append, List.nil_append, List.append_nil,
        b32.encodeChar]
      simp at q r
      rw [q.1, q.2, ← r.1, ← r.2]
  | [a, b], h => by
      have ha : a < 256 := h a (by simp)
      have hb : b < 256 := h b (by simp)
      have q := b32.groups5 a b 0 0 0 ha hb (by decide) (by decide) (by decide)
      have r := b32.group_arith a b 0 0 0 ha hb (by decide) (by decide) (by decide)
      simp only [b32.unpack, List.map_cons, List.map_nil, List.flatMap_cons, List.flatMap_nil,
        rfc4648.bits, rfc4648.groups, List.cons_append, List.nil_append, List.append_nil,
        b32.encodeChar]
      simp at q r
      rw [q.1, q.2.1, q.2.2.1, q.2.2.2, ← r.1, ← r.2.1, ← r.2.2]
  | [a, b, c], h => by
      have ha : a < 256 := h a (by simp)
      have hb : b < 256 := h b (by simp)
      have hc : c < 256 := h c (by simp)
      have q := b32.groups5 a b c 0 0 ha hb hc (by decide) (by decide)
      have r := b32.group_arith a b c 0 0 ha hb hc (by decide) (by decide)
      simp only [b32.unpack, List.map_cons, List.map_nil, List.flatMap_cons, List.flatMap_nil,
        rfc4648.bits, rfc4648.groups, List.cons_append, List.nil_append, List.append_nil,
        b32.encodeChar]
      simp at q r
      rw [q.1, q.2.1, q.2.2.1, q.2.2.2.1, q.2.2.2.2, ← r.1, ← r.2.1, ← r.2.2.1, ← r.2.2.2.1, ← r.2.2.2.2]
  | [a, b, c, d], h => by
      have ha : a < 256 := h a (by simp)
      have hb : b < 256 := h b (by simp)
      have hc : c < 256 := h c (by simp)
      have hd : d < 256 := h d (by simp)
      have q := b32.groups5 a b c d 0 ha hb hc hd (by decide)
      have r := b32.group_arith a b c d 0 ha hb hc hd (by decide)
      simp only [b32.unpack, List.map_cons, List.map_nil, List.flatMap_cons, List.flatMap_nil,
        rfc4648.bits, rfc4648.groups, List.cons_append, List.nil_append, List.append_nil,
        b32.encodeChar]
      simp at q r
      rw [q.1, q.2.1, q.2.2.1, q.2.2.2.1, q.2.2.2.2.1, q.2.2.2.2.2.1, q.2.2.2.2.2.2,
        ← r.1, ← r.2.1, ← r.2.2.1, ← r.2.2.2.1, ← r.2.2.2.2.1, ← r.2.2.2.2.2.1, ← r.2.2.2.2.2.2]
  | a :: b :: c :: d :: e :: rest, h => by
      have ha : a < 256 := h a (by simp)
      have hb : b < 256 := h b (by simp)
      have hc : c < 256 := h c (by simp)
      have hd : d < 256 := h d (by simp)
      have he : e < 256 := h e (by simp)
      have ih := b32.unpack_eq_groups rest (fun x hx => h x (by simp [hx]))
      obtain ⟨q0, q1, q2, q3, q4, q5, q6, q7⟩ := b32.groups5 a b c d e ha hb hc hd he
      obtain ⟨r0, r1, r2, r3, r4, r5, r6, r7⟩ := b32.group_arith a b c d e ha hb hc hd he
      simp only [b32.unpack, List.map_cons, List.map_nil, List.map_append, List.flatMap_cons,
        rfc4648.bits, rfc4648.groups, List.cons_append, List.nil_append, b32.encodeChar]
      rw [q0, q1, q2, q3, q4, q5, q6, q7]
      simp only [List.append_eq, List.nil_append, ih]
      rw [← r0, ← r1, ← r2, ← r3, ← r4, ← r5, ← r6, ← r7]
      rfl

/-- The encoder of the library gives the RFC 4648 text. -/
theorem b32.EncodeToString_eq_rfc4648 (bs : List Nat) (h : ∀ x ∈ bs, x < 256) :
    b32.EncodeToString bs = rfc4648.base32 bs := by
  simp only [b32.EncodeToString, rfc4648.base32, b32.unpack_eq_groups bs h]

/-! ## Lemmas: SHA2-256 -/

namespace sha256

theorem be_length (n : Nat) : ∀ k, (be n k).length = k
  | 0 => rfl
  | k + 1 => by simp [be, be_length n k]

theorem be_lt (n : Nat) : ∀ k, ∀ x ∈ be n k, x < 256
  | 0 => by simp [be]
  | k + 1 => by
      intro x hx
      simp only [be, List.mem_cons] at hx
      rcases hx with rfl | hx
      · exact Nat.mod_lt _ (by decide)
      · exact be_lt n k x hx

/-- The padded message is a whole number of 64-byte blocks. -/
theorem pad_length (data : List Nat) : (pad data).length % 64 = 0 := by
  simp only [pad, List.length_append, List.length_cons, List.length_replicate, be_length]
  split <;> omega

/-- The model agrees with the one-block test vector of FIPS 180-4. -/
theorem Sum256_abc : Sum256 abc =
    [0xba, 0x78, 0x16, 0xbf, 0x8f, 0x01, 0xcf, 0xea, 0x41, 0x41, 0x40, 0xde, 0x5d, 0xae, 0x22, 0x23,
     0xb0, 0x03, 0x61, 0xa3, 0x96, 0x17, 0x7a, 0x9c, 0xb4, 0x10, 0xff, 0x61, 0xf2, 0x00, 0x15, 0xad] := by
  decide!

/-- The model agrees with the two-block test vector of FIPS 180-4. -/
theorem Sum256_abcdbcde : Sum256 abcdbcde =
    [0x24, 0x8d, 0x6a, 0x61, 0xd2, 0x06, 0x38, 0xb8, 0xe5, 0xc0, 0x26, 0x93, 0x0c, 0x3e, 0x60, 0x39,
     0xa3, 0x3c, 0xe4, 0x59, 0x64, 0xff, 0x21, 0x67, 0xf6, 0xec, 0xed, 0xd4, 0x19, 0xdb, 0x06, 0xc1] := by
  decide!

/-- A digest has 32 bytes. -/
theorem Sum256_length (data : List Nat) : (Sum256 data).length = 32 := by
  simp [Sum256, State.bytes, be_length]

/-- The bytes of a digest are below 256. -/
theorem Sum256_lt (data : List Nat) : ∀ x ∈ Sum256 data, x < 256 := by
  intro x hx
  simp only [Sum256, State.bytes, List.mem_append] at hx
  rcases hx with ((((((hx | hx) | hx) | hx) | hx) | hx) | hx) | hx <;> exact be_lt _ _ x hx

end sha256

/-! ## Lemmas: the bounded loops run to their end -/

/-- With `k` steps for a number below 128 to the `k`, the loop of `PutUvarint`
stops on a last byte: more steps change nothing. -/
theorem varint.putLoop_enough : ∀ (k n x : Nat), 0 < k → x < 128 ^ k →
    varint.putLoop (k + n) x = varint.putLoop k x
  | 0, _, _, hk, _ => absurd hk (by decide)
  | 1, n, x, _, hx => by
      have h : ¬ 0x80 ≤ x := by omega
      rw [show 1 + n = n + 1 by omega]
      simp [varint.putLoop, h]
  | k + 2, n, x, _, hx => by
      have ih := varint.putLoop_enough (k + 1) n (x >>> 7) (by omega)
        (by rw [Nat.shiftRight_eq_div_pow]; rw [Nat.pow_succ] at hx; omega)
      rw [show k + 2 + n = (k + 1 + n) + 1 by omega]
      simp only [varint.putLoop, ih]

/-- Ten steps are enough for every `uint64`. -/
theorem varint.PutUvarint_enough (n x : Nat) :
    varint.putLoop (10 + n) (x % 2 ^ 64) = varint.PutUvarint x :=
  varint.putLoop_enough 10 n _ (by decide)
    (Nat.lt_of_lt_of_le (Nat.mod_lt _ (by decide)) (by decide))

/-- With `fuel` steps for a number below the base to the `fuel`, the digit loop
of base58 runs to its end: more steps change nothing. -/
theorem b58.digits_enough (b : Nat) (hb : 2 ≤ b) : ∀ (fuel k n : Nat) (acc : List Nat),
    n < b ^ fuel → b58.digits b (fuel + k) n acc = b58.digits b fuel n acc
  | 0, k, n, acc, h => by
      have hn : n = 0 := by simpa using h
      subst hn
      cases k <;> simp [b58.digits]
  | fuel + 1, k, n, acc, h => by
      have hdiv : n / b < b ^ fuel := by
        rw [Nat.div_lt_iff_lt_mul (by omega)]
        simpa [Nat.pow_succ] using h
      rw [show fuel + 1 + k = (fuel + k) + 1 by omega]
      simp only [b58.digits, b58.digits_enough b hb fuel k (n / b) _ hdiv]

/-! ## Lemmas: identifiers -/

/-- The identifier `computeCID` returns, byte by byte. -/
theorem computeCID_eq (data : List Nat) :
    computeCID data = .ok ⟨1 :: 0x55 :: 0x12 :: 0x20 :: sha256.Sum256 data⟩ := by
  have h1 : varint.PutUvarint cid.Raw = [0x55] := by decide
  have h2 : varint.PutUvarint mh.SHA2_256 = [0x12] := by decide
  have h3 : varint.PutUvarint 32 = [0x20] := by decide
  simp [computeCID, mh.Encode, cid.NewCidV1, sha256.Sum256_length, h1, h2, h3]

namespace cid

theorem rawSha256_Version (dg : List Nat) (hl : dg.length = 32) : (rawSha256 dg).Version = 1 := by
  simp [rawSha256, Cid.Version, hl]

theorem rawSha256_String (dg : List Nat) (hl : dg.length = 32) :
    (rawSha256 dg).String = "b" ++ b32.EncodeToString (1 :: 0x55 :: 0x12 :: 0x20 :: dg) := by
  rw [Cid.String, rawSha256_Version dg hl]
  simp [mbase.EncodeBase32, Cid.Bytes, rawSha256]

theorem rawSha256_Cast (dg : List Nat) (hl : dg.length = 32) :
    Cast (1 :: 0x55 :: 0x12 :: 0x20 :: dg) = .ok (rawSha256 dg) := by
  have v1 : varint.FromUvarint (1 :: 0x55 :: 0x12 :: 0x20 :: dg) = .ok (1, 1) := rfl
  have v2 : varint.FromUvarint (0x55 :: 0x12 :: 0x20 :: dg) = .ok (0x55, 1) := rfl
  have v3 : varint.FromUvarint (0x12 :: 0x20 :: dg) = .ok (0x12, 1) := rfl
  have v4 : varint.FromUvarint (0x20 :: dg) = .ok (0x20, 1) := rfl
  have m : mh.MHFromBytes (0x12 :: 0x20 :: dg) = .ok (34, 0x12 :: 0x20 :: dg) := by
    simp [mh.MHFromBytes, mh.readMultihashFromBuf, v3, v4, hl]
  simp [Cast, CidFromBytes, v1, v2, m, hl, rawSha256, mh.SHA2_256]

theorem rawSha256_utf8ByteSize (dg : List Nat) (hl : dg.length = 32) :
    (rawSha256 dg).String.utf8ByteSize = 59 := by
  rw [rawSha256_String dg hl]
  show String.utf8ByteSize ⟨'b' :: ((b32.unpack (1 :: 0x55 :: 0x12 :: 0x20 :: dg)).map b32.encodeChar)⟩ = 59
  have hb : 'b'.utf8Size = 1 := by decide
  simp [b32.utf8Len_encodeChar, b32.unpack_length, hl, hb]

theorem rawSha256_bytes_lt (dg : List Nat) (hb : ∀ x ∈ dg, x < 256) :
    ∀ x ∈ 1 :: 0x55 :: 0x12 :: 0x20 :: dg, x < 256 := by
  intro x hx
  simp only [List.mem_cons] at hx
  rcases hx with rfl | rfl | rfl | rfl | hx
  · decide
  · decide
  · decide
  · decide
  · exact hb x hx

theorem rawSha256_Decode (others : mbase.Others) (dg : List Nat) (hl : dg.length = 32)
    (hb : ∀ x ∈ dg, x < 256) : Decode others (rawSha256 dg).String = .ok (rawSha256 dg) := by
  have hbytes := rawSha256_bytes_lt dg hb
  have hsz := rawSha256_utf8ByteSize dg hl
  have hdata : (rawSha256 dg).String.data
      = 'b' :: (b32.EncodeToString (1 :: 0x55 :: 0x12 :: 0x20 :: dg)).data := by
    rw [rawSha256_String dg hl]; rfl
  have hm : mbase.Decode others (rawSha256 dg).String = .ok (1 :: 0x55 :: 0x12 :: 0x20 :: dg) := by
    simp [mbase.Decode, hdata, b32.DecodeString_EncodeToString _ hbytes]
  simp [Decode, hsz, hm, rawSha256_Cast dg hl]

end cid

theorem computeCID_rawSha256 (data : List Nat) :
    computeCID data = .ok (cid.rawSha256 (sha256.Sum256 data)) := computeCID_eq data

theorem Sum256_helloWorld : sha256.Sum256 helloWorld =
    [0xb9, 0x4d, 0x27, 0xb9, 0x93, 0x4d, 0x3e, 0x08, 0xa5, 0x2e, 0x52, 0xd7, 0xda, 0x7d, 0xab, 0xfa,
     0xc4, 0x84, 0xef, 0xe3, 0x7a, 0x53, 0x80, 0xee, 0x90, 0x88, 0xf7, 0xac, 0xe2, 0xef, 0xcd, 0xe9] := by
  decide!

/-! ## Lemmas: the handlers -/

theorem handleIPFS_decode_error {σ : Type} (others : mbase.Others) (s3 : minio.Client σ)
    (bucket : String) (st : σ) (cidStr : String) (e : cid.Error)
    (h : cid.Decode others cidStr = .error e) :
    handleIPFS others s3 bucket st cidStr =
      ⟨http.Error "invalid CID" http.StatusBadRequest, [], st⟩ := by
  simp [handleIPFS, h]

theorem handleIPFS_get_error {σ : Type} (others : mbase.Others) (s3 : minio.Client σ)
    (bucket : String) (st : σ) (cidStr : String) (c : cid.Cid) (e : minio.GoError)
    (h : cid.Decode others cidStr = .ok c) (hg : s3.GetObject st bucket cidStr = .error e) :
    handleIPFS others s3 bucket st cidStr =
      ⟨http.Error "storage error" http.StatusBadGateway, [.GetObject bucket cidStr], st⟩ := by
  simp [handleIPFS, h, hg]

theorem handleIPFS_stat_error {σ : Type} (others : mbase.Others) (s3 : minio.Client σ)
    (bucket : String) (st : σ) (cidStr : String) (c : cid.Cid) (obj : minio.Object)
    (e : minio.GoError)
    (h : cid.Decode others cidStr = .ok c) (hg : s3.GetObject st bucket cidStr = .ok obj)
    (hs : obj.Stat = .error e) :
    handleIPFS others s3 bucket st cidStr =
      if (minio.ToErrorResponse e).Code = "NoSuchKey" then
        ⟨http.Error "not found" http.StatusNotFound, [.GetObject bucket cidStr, .Stat], st⟩
      else
        ⟨http.Error "storage error" http.StatusBadGateway, [.GetObject bucket cidStr, .Stat], st⟩ := by
  simp [handleIPFS, h, hg, hs]

theorem handleIPFS_ok {σ : Type} (others : mbase.Others) (s3 : minio.Client σ)
    (bucket : String) (st : σ) (cidStr : String) (c : cid.Cid) (obj : minio.Object)
    (info : minio.ObjectInfo)
    (h : cid.Decode others cidStr = .ok c) (hg : s3.GetObject st bucket cidStr = .ok obj)
    (hs : obj.Stat = .ok info) :
    handleIPFS others s3 bucket st cidStr =
      ⟨⟨http.StatusOK,
        ⟨[("Content-Type",
            if info.ContentType = "" then "application/octet-stream" else info.ContentType),
          ("Content-Length", strconv.FormatInt info.Size),
          ("Cache-Control", "public, max-age=29030400, immutable"),
          ("X-Ipfs-Path", "/ipfs/" ++ cidStr)]⟩,
        .bytes obj.content⟩, [.GetObject bucket cidStr, .Stat], st⟩ := by
  simp [handleIPFS, h, hg, hs, http.Header.Set]

theorem Error_status (msg : String) (code : Nat) : (http.Error msg code).status = code := rfl

/-- The status of the retrieval handler is 400 exactly when parsing failed. -/
theorem handleIPFS_status_400_iff {σ : Type} (others : mbase.Others) (s3 : minio.Client σ)
    (bucket : String) (st : σ) (cidStr : String) :
    (handleIPFS others s3 bucket st cidStr).resp.status = 400 ↔
      ∃ e, cid.Decode others cidStr = .error e := by
  cases h : cid.Decode others cidStr with
  | error e =>
    rw [handleIPFS_decode_error others s3 bucket st cidStr e h]
    simp [Error_status, http.StatusBadRequest]
  | ok c =>
    cases hg : s3.GetObject st bucket cidStr with
    | error e =>
      rw [handleIPFS_get_error others s3 bucket st cidStr c e h hg]
      simp [Error_status, http.StatusBadGateway]
    | ok obj =>
      cases hs : obj.Stat with
      | error e =>
        rw [handleIPFS_stat_error others s3 bucket st cidStr c obj e h hg hs]
        split <;> simp [Error_status, http.StatusBadGateway, http.StatusNotFound]
      | ok info =>
        rw [handleIPFS_ok others s3 bucket st cidStr c obj info h hg hs]
        simp [http.StatusOK]

/-- An identifier string that parses is looked up in the store. -/
theorem handleIPFS_first_call {σ : Type} (others : mbase.Others) (s3 : minio.Client σ)
    (bucket : String) (st : σ) (cidStr : String) (c : cid.Cid)
    (h : cid.Decode others cidStr = .ok c) :
    (handleIPFS others s3 bucket st cidStr).calls.head? = some (.GetObject bucket cidStr) := by
  cases hg : s3.GetObject st bucket cidStr with
  | error e => rw [handleIPFS_get_error others s3 bucket st cidStr c e h hg]; rfl
  | ok obj =>
    cases hs : obj.Stat with
    | error e =>
      rw [handleIPFS_stat_error others s3 bucket st cidStr c obj e h hg hs]
      split <;> rfl
    | ok info => rw [handleIPFS_ok others s3 bucket st cidStr c obj info h hg hs]; rfl

theorem Decode_base32_others (o1 o2 : mbase.Others) (v : String) (rest : List Char)
    (h : v.data = 'b' :: rest) : cid.Decode o1 v = cid.Decode o2 v := by
  simp [cid.Decode, mbase.Decode, h]

theorem Decode_v0_others (o1 o2 : mbase.Others) (v : String)
    (h : v.utf8ByteSize = 46 ∧ v.data.take 2 = ['Q', 'm']) : cid.Decode o1 v = cid.Decode o2 v := by
  simp [cid.Decode, h]

theorem Decode_dagPbCid (others : mbase.Others) : cid.Decode others dagPbCid = .ok ⟨dagPbBytes⟩ :=
  (Decode_base32_others others noOthers dagPbCid _ rfl).trans (by decide!)

theorem Decode_v0Cid (others : mbase.Others) : cid.Decode others v0Cid = .ok ⟨v0Bytes⟩ :=
  (Decode_v0_others others noOthers v0Cid (by decide!)).trans (by decide!)

theorem helloCid_eq : (cid.rawSha256 (sha256.Sum256 helloWorld)).String = helloCid := by
  rw [Sum256_helloWorld]
  decide!

theorem Decode_helloCid (others : mbase.Others) :
    cid.Decode others helloCid = .ok (cid.rawSha256 (sha256.Sum256 helloWorld)) := by
  rw [← helloCid_eq]
  exact cid.rawSha256_Decode others _ (sha256.Sum256_length _) (sha256.Sum256_lt _)

theorem memClient_GetAfterPut : GetAfterPut memClient := by
  intro st st1 bucket key data size contentType h
  simp only [memClient, Prod.mk.injEq, and_true] at h
  subst h
  exact ⟨⟨.ok ⟨size, contentType⟩, data⟩, by simp [memClient], rfl, rfl⟩

theorem handleUpload_put {σ : Type} (s3 : minio.Client σ) (bucket : String) (st : σ)
    (r : Request) (file : File) (header : FileHeader) (d : List Nat)
    (hf : r.FormFile "file" = .ok (file, header)) (hr : file.ReadAll = .ok d) :
    handleUpload s3 bucket st r =
      match s3.PutObject st bucket (cid.rawSha256 (sha256.Sum256 d)).String d (d.length : Int)
          (if header.ContentType = "" then "application/octet-stream"
            else header.ContentType) with
      | (st1, some _) =>
        ⟨http.Error "storage error" http.StatusBadGateway,
          [.PutObject bucket (cid.rawSha256 (sha256.Sum256 d)).String d (d.length : Int)
            (if header.ContentType = "" then "application/octet-stream"
              else header.ContentType)], st1⟩
      | (st1, none) =>
        ⟨⟨http.StatusCreated, (http.Header.mk []).Set "Content-Type" "application/json",
           .json [("cid", (cid.rawSha256 (sha256.Sum256 d)).String),
             ("url", "/ipfs/" ++ (cid.rawSha256 (sha256.Sum256 d)).String)]⟩,
          [.PutObject bucket (cid.rawSha256 (sha256.Sum256 d)).String d (d.length : Int)
            (if header.ContentType = "" then "application/octet-stream"
              else header.ContentType)], st1⟩ := by
  simp only [handleUpload, hf, hr, computeCID_rawSha256]

/-! ## The claims -/

/-- C1: for every byte buffer, `computeCID` returns without error a CIDv1 with
codec raw (0x55) whose binary form is the bytes 0x01 0x55 0x12 0x20 followed by the 32-byte SHA2-256
digest of the whole buffer, whose multihash decodes to code 0x12, length 0x20
and that digest, and whose canonical string is the character b followed by the
unpadded lowercase base32 text of those 36 bytes, as the library encodes it and
as RFC 4648 words it, 59 characters in all. -/
theorem computeCID_cidv1_raw_sha256 (data : List Nat) :
    ∃ c, computeCID data = .ok c ∧
      c.Version = 1 ∧
      c.Type = cid.Raw ∧
      c.Bytes = [0x01, 0x55, 0x12, 0x20] ++ sha256.Sum256 data ∧
      (sha256.Sum256 data).length = 32 ∧
      mh.Decode c.Hash = .ok ⟨0x12, 0x20, sha256.Sum256 data⟩ ∧
      c.String = "b" ++ b32.EncodeToString ([0x01, 0x55, 0x12, 0x20] ++ sha256.Sum256 data) ∧
      c.String = "b" ++ rfc4648.base32 ([0x01, 0x55, 0x12, 0x20] ++ sha256.Sum256 data) ∧
      c.String.utf8ByteSize = 59 := by
  have hl := sha256.Sum256_length data
  have hr := b32.EncodeToString_eq_rfc4648 _
    (cid.rawSha256_bytes_lt _ (sha256.Sum256_lt data))
  have s1 : cid.skip (1 :: 0x55 :: 0x12 :: 0x20 :: sha256.Sum256 data) = 1 := rfl
  have s2 : cid.skip (0x55 :: 0x12 :: 0x20 :: sha256.Sum256 data) = 1 := rfl
  have v2 : varint.FromUvarint (0x55 :: 0x12 :: 0x20 :: sha256.Sum256 data) = .ok (0x55, 1) := rfl
  have ht : (cid.rawSha256 (sha256.Sum256 data)).Type = cid.Raw := by
    simp [cid.Cid.Type, cid.rawSha256_Version _ hl]
    simp [cid.rawSha256, cid.Cid.Bytes, s1, v2, cid.Raw]
  refine ⟨_, computeCID_rawSha256 data, cid.rawSha256_Version _ hl, ht, rfl, hl, ?_,
    cid.rawSha256_String _ hl, hr ▸ cid.rawSha256_String _ hl, cid.rawSha256_utf8ByteSize _ hl⟩
  have v3 : varint.FromUvarint (0x12 :: 0x20 :: sha256.Sum256 data) = .ok (0x12, 1) := rfl
  have v4 : varint.FromUvarint (0x20 :: sha256.Sum256 data) = .ok (0x20, 1) := rfl
  have hh : (cid.rawSha256 (sha256.Sum256 data)).Hash = 0x12 :: 0x20 :: sha256.Sum256 data := by
    simp [cid.Cid.Hash, cid.rawSha256_Version _ hl]
    simp [cid.rawSha256, cid.Cid.Bytes, s1, s2]
  rw [hh]
  simp [mh.Decode, mh.readMultihashFromBuf, v3, v4, hl]

/-- C2: over a store in which a get after a put of the same key returns what
was put, for every byte buffer `d` uploaded successfully (status 201) in the
part `file`, retrieving the identifier the upload returned answers 200 with a
body equal to `d`, a Content-Length equal to the length of `d` and a
Content-Type equal to the content type declared at upload,
application/octet-stream when none was declared. -/
theorem upload_then_retrieve {σ : Type} (others : mbase.Others) (s3 : minio.Client σ)
    (bucket : String) (st : σ) (r : Request) (file : File) (header : FileHeader) (d : List Nat)
    (hlaw : GetAfterPut s3)
    (hf : r.FormFile "file" = .ok (file, header)) (hr : file.ReadAll = .ok d)
    (hup : (handleUpload s3 bucket st r).resp.status = 201) :
    ∃ c, (handleUpload s3 bucket st r).resp.body = .json [("cid", c), ("url", "/ipfs/" ++ c)] ∧
      (handleIPFS others s3 bucket (handleUpload s3 bucket st r).store c).resp.status = 200 ∧
      (handleIPFS others s3 bucket (handleUpload s3 bucket st r).store c).resp.body = .bytes d ∧
      (handleIPFS others s3 bucket (handleUpload s3 bucket st r).store c).resp.header.Get
        "Content-Length" = strconv.FormatInt (d.length : Int) ∧
      (handleIPFS others s3 bucket (handleUpload s3 bucket st r).store c).resp.header.Get
        "Content-Type" =
          if header.ContentType = "" then "application/octet-stream" else header.ContentType := by
  have hu := handleUpload_put s3 bucket st r file header d hf hr
  rw [hu] at hup ⊢
  have hdec := cid.rawSha256_Decode others _ (sha256.Sum256_length d) (sha256.Sum256_lt d)
  generalize hp : s3.PutObject st bucket (cid.rawSha256 (sha256.Sum256 d)).String d
      (d.length : Int)
      (if header.ContentType = "" then "application/octet-stream" else header.ContentType) = p
    at hup ⊢
  obtain ⟨st1, oe⟩ := p
  cases oe with
  | some e => simp [http.Error, http.StatusBadGateway] at hup
  | none =>
    obtain ⟨obj, hg, hs, hc⟩ := hlaw _ _ _ _ _ _ _ hp
    refine ⟨_, rfl, ?_⟩
    simp only []
    rw [handleIPFS_ok others s3 bucket st1 _ _ obj _ hdec hg hs]
    refine ⟨rfl, by rw [← hc], ?_, ?_⟩
    · simp [http.Header.Get]
    · by_cases hct : header.ContentType = "" <;> simp [http.Header.Get, hct]

/-- C2 at the bytes hello world, declared text/plain, over the empty in-memory
store. -/
theorem upload_then_retrieve_witness :
    GetAfterPut memClient ∧
    (handleUpload memClient "ipfs" [] (uploadOf helloWorld "text/plain")).resp.status = 201 ∧
    ∃ c, (handleUpload memClient "ipfs" [] (uploadOf helloWorld "text/plain")).resp.body
        = .json [("cid", c), ("url", "/ipfs/" ++ c)] ∧
      (handleIPFS noOthers memClient "ipfs"
        (handleUpload memClient "ipfs" [] (uploadOf helloWorld "text/plain")).store c).resp.status
        = 200 ∧
      (handleIPFS noOthers memClient "ipfs"
        (handleUpload memClient "ipfs" [] (uploadOf helloWorld "text/plain")).store c).resp.body
        = .bytes helloWorld ∧
      (handleIPFS noOthers memClient "ipfs"
        (handleUpload memClient "ipfs" [] (uploadOf helloWorld "text/plain")).store
          c).resp.header.Get "Content-Length" = strconv.FormatInt 11 ∧
      (handleIPFS noOthers memClient "ipfs"
        (handleUpload memClient "ipfs" [] (uploadOf helloWorld "text/plain")).store
          c).resp.header.Get "Content-Type" = "text/plain" :=
  ⟨memClient_GetAfterPut, by decide!,
    upload_then_retrieve noOthers memClient "ipfs" [] (uploadOf helloWorld "text/plain")
      ⟨.ok helloWorld⟩ ⟨"text/plain"⟩ helloWorld memClient_GetAfterPut rfl rfl (by decide!)⟩

/-- C3: for every byte buffer, parsing the canonical string of the identifier
`computeCID` returns with `cid.Decode`, the parser of the retrieval handler,
succeeds and gives that identifier back. -/
theorem decode_string_computeCID (others : mbase.Others) (d : List Nat) :
    ∃ c, computeCID d = .ok c ∧ cid.Decode others c.String = .ok c :=
  ⟨_, computeCID_rawSha256 d,
    cid.rawSha256_Decode others _ (sha256.Sum256_length d) (sha256.Sum256_lt d)⟩

/-- C4, as stated, fails: a well-formed dag-pb CIDv1 and a well-formed CIDv0,
neither of them a CIDv1 / raw / SHA2-256 identifier, both pass the validation
of the retrieval handler, which goes on to look them up in storage and, over an
empty store, answers 404 and not 400. -/
theorem other_identifiers_pass_validation :
    (¬ cid.IsRawSha256 ⟨dagPbBytes⟩ ∧
      ∀ others, cid.Decode others dagPbCid = .ok ⟨dagPbBytes⟩ ∧
        (handleIPFS others memClient "ipfs" [] dagPbCid).resp.status = 404 ∧
        (handleIPFS others memClient "ipfs" [] dagPbCid).calls =
          [.GetObject "ipfs" dagPbCid, .Stat]) ∧
    (¬ cid.IsRawSha256 ⟨v0Bytes⟩ ∧
      ∀ others, cid.Decode others v0Cid = .ok ⟨v0Bytes⟩ ∧
        (handleIPFS others memClient "ipfs" [] v0Cid).resp.status = 404 ∧
        (handleIPFS others memClient "ipfs" [] v0Cid).calls =
          [.GetObject "ipfs" v0Cid, .Stat]) := by
  refine ⟨⟨by decide, fun others => ⟨Decode_dagPbCid others, ?_⟩⟩,
    ⟨by decide, fun others => ⟨Decode_v0Cid others, ?_⟩⟩⟩
  · rw [handleIPFS_stat_error others memClient "ipfs" [] dagPbCid _
      ⟨.error (.response ⟨"NoSuchKey"⟩), []⟩ (.response ⟨"NoSuchKey"⟩)
      (Decode_dagPbCid others) rfl rfl]
    exact ⟨rfl, rfl⟩
  · rw [handleIPFS_stat_error others memClient "ipfs" [] v0Cid _
      ⟨.error (.response ⟨"NoSuchKey"⟩), []⟩ (.response ⟨"NoSuchKey"⟩)
      (Decode_v0Cid others) rfl rfl]
    exact ⟨rfl, rfl⟩

/-- C4, amended: the retrieval handler answers 400 exactly for the identifier
strings that `cid.Decode` fails to parse; a string that parses as an identifier
of any version, codec and hash function passes validation, and the handler
goes on to ask the store for it. -/
theorem handleIPFS_400_iff_decode_fails {σ : Type} (others : mbase.Others)
    (s3 : minio.Client σ) (bucket : String) (st : σ) (cidStr : String) :
    ((handleIPFS others s3 bucket st cidStr).resp.status = http.StatusBadRequest ↔
      ∃ e, cid.Decode others cidStr = .error e) ∧
    ((∃ c, cid.Decode others cidStr = .ok c) →
      (handleIPFS others s3 bucket st cidStr).calls.head? = some (.GetObject bucket cidStr)) :=
  ⟨handleIPFS_status_400_iff others s3 bucket st cidStr,
    fun ⟨c, h⟩ => handleIPFS_first_call others s3 bucket st cidStr c h⟩

/-- C4, amended, at the dag-pb identifier over the empty in-memory store: it
parses, the answer is not 400 and the first call asks the store for it. -/
theorem handleIPFS_400_iff_decode_fails_witness :
    (∃ c, cid.Decode noOthers dagPbCid = .ok c) ∧
    (handleIPFS noOthers memClient "ipfs" [] dagPbCid).calls.head?
      = some (.GetObject "ipfs" dagPbCid) ∧
    (handleIPFS noOthers memClient "ipfs" [] dagPbCid).resp.status ≠ http.StatusBadRequest :=
  ⟨⟨_, Decode_dagPbCid noOthers⟩,
    (handleIPFS_400_iff_decode_fails noOthers memClient "ipfs" [] dagPbCid).2
      ⟨_, Decode_dagPbCid noOthers⟩,
    fun h => by
      obtain ⟨e, he⟩ :=
        (handleIPFS_400_iff_decode_fails noOthers memClient "ipfs" [] dagPbCid).1.1 h
      rw [Decode_dagPbCid noOthers] at he
      exact Except.noConfusion he⟩

/-- C5: for every path segment that fails identifier parsing, the retrieval
handler answers 400 and makes no call on the storage client; the store is left
as it was. -/
theorem handleIPFS_unparsed_no_storage {σ : Type} (others : mbase.Others)
    (s3 : minio.Client σ) (bucket : String) (st : σ) (cidStr : String) (e : cid.Error)
    (h : cid.Decode others cidStr = .error e) :
    (handleIPFS others s3 bucket st cidStr).resp.status = 400 ∧
      (handleIPFS others s3 bucket st cidStr).calls = [] ∧
      (handleIPFS others s3 bucket st cidStr).store = st := by
  rw [handleIPFS_decode_error others s3 bucket st cidStr e h]
  exact ⟨rfl, rfl, rfl⟩

/-- C5 at the path segment not-a-cid and at the identifier of hello world with
its last character cut off, over the in-memory store. -/
theorem handleIPFS_unparsed_no_storage_witness :
    (cid.Decode noOthers "not-a-cid" = .error (.multibase .other) ∧
      (handleIPFS noOthers memClient "ipfs" [] "not-a-cid").resp.status = 400 ∧
      (handleIPFS noOthers memClient "ipfs" [] "not-a-cid").calls = [] ∧
      (handleIPFS noOthers memClient "ipfs" [] "not-a-cid").store = []) ∧
    (cid.Decode noOthers cutCid = .error (.invalidMultihash .lengthGreaterThanBuffer) ∧
      (handleIPFS noOthers memClient "ipfs" helloStore cutCid).resp.status = 400 ∧
      (handleIPFS noOthers memClient "ipfs" helloStore cutCid).calls = [] ∧
      (handleIPFS noOthers memClient "ipfs" helloStore cutCid).store = helloStore) :=
  ⟨⟨by decide!, handleIPFS_unparsed_no_storage noOthers memClient "ipfs" [] "not-a-cid"
      (.multibase .other) (by decide!)⟩,
   ⟨by decide!, handleIPFS_unparsed_no_storage noOthers memClient "ipfs" helloStore cutCid
      (.invalidMultihash .lengthGreaterThanBuffer) (by decide!)⟩⟩

/-- C6: for every identifier that passes validation, over the storage client
of minio-go, whose `GetObject` opens lazily, the retrieval handler answers 404
when the client reports the object as not found (code NoSuchKey) and 502 for
every other storage failure, at whichever step, opening the object or reading
its metadata, the client reports it; a not-found outcome is never answered
with 502. -/
theorem handleIPFS_not_found_404_else_502 {σ : Type} (others : mbase.Others)
    (s3 : minio.Client σ) (bucket : String) (st : σ) (cidStr : String) (c : cid.Cid)
    (hlazy : minio.LazyGetObject s3)
    (h : cid.Decode others cidStr = .ok c) :
    (∀ e, storageFailure s3 st bucket cidStr = some e →
      ((minio.ToErrorResponse e).Code = "NoSuchKey" →
        (handleIPFS others s3 bucket st cidStr).resp.status = 404) ∧
      ((minio.ToErrorResponse e).Code ≠ "NoSuchKey" →
        (handleIPFS others s3 bucket st cidStr).resp.status = 502)) ∧
    (∀ e, s3.GetObject st bucket cidStr = .error e →
      (minio.ToErrorResponse e).Code ≠ "NoSuchKey" ∧
      (handleIPFS others s3 bucket st cidStr).resp.status = 502) ∧
    (∀ obj e, s3.GetObject st bucket cidStr = .ok obj → obj.Stat = .error e →
      (handleIPFS others s3 bucket st cidStr).resp.status =
        if (minio.ToErrorResponse e).Code = "NoSuchKey" then 404 else 502) ∧
    ((handleIPFS others s3 bucket st cidStr).resp.status = 502 →
      ∀ e, storageFailure s3 st bucket cidStr = some e →
        (minio.ToErrorResponse e).Code ≠ "NoSuchKey") := by
  have hget : ∀ e, s3.GetObject st bucket cidStr = .error e →
      (minio.ToErrorResponse e).Code ≠ "NoSuchKey" ∧
      (handleIPFS others s3 bucket st cidStr).resp.status = 502 := by
    intro e hg
    refine ⟨hlazy st bucket cidStr e hg, ?_⟩
    rw [handleIPFS_get_error others s3 bucket st cidStr c e h hg]
    rfl
  have hstat : ∀ obj e, s3.GetObject st bucket cidStr = .ok obj → obj.Stat = .error e →
      (handleIPFS others s3 bucket st cidStr).resp.status =
        if (minio.ToErrorResponse e).Code = "NoSuchKey" then 404 else 502 := by
    intro obj e hg hs
    rw [handleIPFS_stat_error others s3 bucket st cidStr c obj e h hg hs]
    split <;> rfl
  have hany : ∀ e, storageFailure s3 st bucket cidStr = some e →
      ((minio.ToErrorResponse e).Code = "NoSuchKey" →
        (handleIPFS others s3 bucket st cidStr).resp.status = 404) ∧
      ((minio.ToErrorResponse e).Code ≠ "NoSuchKey" →
        (handleIPFS others s3 bucket st cidStr).resp.status = 502) := by
    intro e hf
    unfold storageFailure at hf
    cases hg : s3.GetObject st bucket cidStr with
    | error e1 =>
      rw [hg] at hf
      have he : e1 = e := by simpa using hf
      subst he
      exact ⟨fun hc => absurd hc (hget e1 hg).1, fun _ => (hget e1 hg).2⟩
    | ok obj =>
      rw [hg] at hf
      cases hs : obj.Stat with
      | error e1 =>
        simp only [hs] at hf
        have he : e1 = e := by simpa using hf
        subst he
        exact ⟨fun hc => by rw [hstat obj e1 hg hs, if_pos hc],
          fun hc => by rw [hstat obj e1 hg hs, if_neg hc]⟩
      | ok info =>
        simp [hs] at hf
  refine ⟨hany, hget, hstat, ?_⟩
  intro h502 e hf hc
  rw [(hany e hf).1 hc] at h502
  exact absurd h502 (by decide)

theorem faultyClient_lazy : minio.LazyGetObject faultyClient := by
  intro st bucket key e hg
  simp only [faultyClient] at hg
  split at hg
  · have he : e = .response ⟨"InvalidBucketName"⟩ := by simpa using hg.symm
    subst he
    decide
  · split at hg <;> simp at hg

/-- C6 at the identifier of hello world over a lazily opening client: absent
at `Stat` gives 404, access denied at `Stat` gives 502, an error of another
type at `Stat` gives 502, and a bucket name refused by `GetObject` gives 502. -/
theorem handleIPFS_not_found_404_else_502_witness :
    minio.LazyGetObject faultyClient ∧
    cid.Decode noOthers helloCid = .ok (cid.rawSha256 (sha256.Sum256 helloWorld)) ∧
    (handleIPFS noOthers faultyClient "ipfs"
      (some (.response ⟨"NoSuchKey"⟩)) helloCid).resp.status = 404 ∧
    (handleIPFS noOthers faultyClient "ipfs"
      (some (.response ⟨"AccessDenied"⟩)) helloCid).resp.status = 502 ∧
    (handleIPFS noOthers faultyClient "ipfs"
      (some (.other "connection refused")) helloCid).resp.status = 502 ∧
    (handleIPFS noOthers faultyClient "" none helloCid).resp.status = 502 :=
  ⟨faultyClient_lazy, Decode_helloCid noOthers,
    ((handleIPFS_not_found_404_else_502 noOthers faultyClient "ipfs"
      (some (.response ⟨"NoSuchKey"⟩)) helloCid _ faultyClient_lazy
      (Decode_helloCid noOthers)).1 (.response ⟨"NoSuchKey"⟩) rfl).1 rfl,
    ((handleIPFS_not_found_404_else_502 noOthers faultyClient "ipfs"
      (some (.response ⟨"AccessDenied"⟩)) helloCid _ faultyClient_lazy
      (Decode_helloCid noOthers)).1 (.response ⟨"AccessDenied"⟩) rfl).2 (by decide),
    ((handleIPFS_not_found_404_else_502 noOthers faultyClient "ipfs"
      (some (.other "connection refused")) helloCid _ faultyClient_lazy
      (Decode_helloCid noOthers)).1 (.other "connection refused") rfl).2 (by decide),
    ((handleIPFS_not_found_404_else_502 noOthers faultyClient "" none helloCid _
      faultyClient_lazy (Decode_helloCid noOthers)).2.1
      (.response ⟨"InvalidBucketName"⟩) rfl).2⟩

/-- C7, as stated, fails: when the part `file` is present and its content
cannot be read, the upload handler answers 500 and not 400. -/
theorem unreadable_upload_answers_500 :
    (∃ file header e, unreadableUpload.FormFile "file" = .ok (file, header) ∧
      file.ReadAll = .error e) ∧
    (handleUpload memClient "ipfs" [] unreadableUpload).resp.status = 500 := by
  exact ⟨⟨_, _, _, rfl, rfl⟩, rfl⟩

/-- C7, amended: the upload handler answers 400 when the multipart field `file`
is missing (`FormFile` fails) and 500 when the content of the part cannot be
read; in both cases it makes no call on the storage client and the store is
left as it was. -/
theorem handleUpload_no_file_or_unreadable {σ : Type} (s3 : minio.Client σ) (bucket : String)
    (st : σ) (r : Request) :
    (∀ e, r.FormFile "file" = .error e →
      (handleUpload s3 bucket st r).resp.status = 400 ∧
      (handleUpload s3 bucket st r).calls = [] ∧ (handleUpload s3 bucket st r).store = st) ∧
    (∀ file header e, r.FormFile "file" = .ok (file, header) → file.ReadAll = .error e →
      (handleUpload s3 bucket st r).resp.status = 500 ∧
      (handleUpload s3 bucket st r).calls = [] ∧ (handleUpload s3 bucket st r).store = st) := by
  refine ⟨?_, ?_⟩
  · intro e h
    simp [handleUpload, h, http.Error, http.StatusBadRequest]
  · intro file header e h hr
    simp [handleUpload, h, hr, http.Error, http.StatusInternalServerError]

/-- C7, amended, at an upload without the field and at one whose part cannot
be read, over the in-memory store. -/
theorem handleUpload_no_file_or_unreadable_witness :
    ((handleUpload memClient "ipfs" [] ⟨fun _ => .error (.other "http: no such file")⟩).resp.status
        = 400 ∧
      (handleUpload memClient "ipfs" [] ⟨fun _ => .error (.other "http: no such file")⟩).calls
        = [] ∧
      (handleUpload memClient "ipfs" [] ⟨fun _ => .error (.other "http: no such file")⟩).store
        = []) ∧
    ((handleUpload memClient "ipfs" [] unreadableUpload).resp.status = 500 ∧
      (handleUpload memClient "ipfs" [] unreadableUpload).calls = [] ∧
      (handleUpload memClient "ipfs" [] unreadableUpload).store = []) :=
  ⟨(handleUpload_no_file_or_unreadable memClient "ipfs" []
      ⟨fun _ => .error (.other "http: no such file")⟩).1 _ rfl,
   (handleUpload_no_file_or_unreadable memClient "ipfs" [] unreadableUpload).2 _ _ _ rfl rfl⟩

/-- C8: for every successful retrieval of the identifier string `cidStr` whose
stored object has declared content type and size `info`, the response has
status 200 and exactly four headers: Content-Type, the declared type or
application/octet-stream when that is empty; Content-Length, the decimal
rendering of the size; Cache-Control, public, max-age=29030400, immutable; and
X-Ipfs-Path, the text /ipfs/ followed by `cidStr`. -/
theorem handleIPFS_success_headers {σ : Type} (others : mbase.Others) (s3 : minio.Client σ)
    (bucket : String) (st : σ) (cidStr : String) (c : cid.Cid) (obj : minio.Object)
    (info : minio.ObjectInfo)
    (h : cid.Decode others cidStr = .ok c) (hg : s3.GetObject st bucket cidStr = .ok obj)
    (hs : obj.Stat = .ok info) :
    (handleIPFS others s3 bucket st cidStr).resp.status = 200 ∧
    (handleIPFS others s3 bucket st cidStr).resp.header =
      ⟨[("Content-Type",
          if info.ContentType = "" then "application/octet-stream" else info.ContentType),
        ("Content-Length", strconv.FormatInt info.Size),
        ("Cache-Control", "public, max-age=29030400, immutable"),
        ("X-Ipfs-Path", "/ipfs/" ++ cidStr)]⟩ := by
  rw [handleIPFS_ok others s3 bucket st cidStr c obj info h hg hs]
  exact ⟨rfl, rfl⟩

/-- C8 at the identifier of hello world, stored with content type text/plain
and size 11. -/
theorem handleIPFS_success_headers_witness :
    (handleIPFS noOthers memClient "ipfs" helloStore helloCid).resp.status = 200 ∧
    (handleIPFS noOthers memClient "ipfs" helloStore helloCid).resp.header =
      ⟨[("Content-Type", "text/plain"),
        ("Content-Length", "11"),
        ("Cache-Control", "public, max-age=29030400, immutable"),
        ("X-Ipfs-Path", "/ipfs/bafkreifzjut3te2nhyekklss27nh3k72ysco7y32koao5eei66wof36n5e")]⟩ :=
  handleIPFS_success_headers noOthers memClient "ipfs" helloStore helloCid _
    ⟨.ok ⟨11, "text/plain"⟩, helloWorld⟩ ⟨11, "text/plain"⟩ (Decode_helloCid noOthers) rfl rfl

/-- C9: for all byte buffers, the canonical strings of their identifiers are
equal exactly when their SHA2-256 digests are equal; so equal buffers give
equal strings and buffers with different digests give different strings. -/
theorem computeCID_string_eq_iff (d1 d2 : List Nat) :
    ∃ c1 c2, computeCID d1 = .ok c1 ∧ computeCID d2 = .ok c2 ∧
      (c1.String = c2.String ↔ sha256.Sum256 d1 = sha256.Sum256 d2) ∧
      (d1 = d2 → c1.String = c2.String) ∧
      (sha256.Sum256 d1 ≠ sha256.Sum256 d2 → c1.String ≠ c2.String) := by
  have key : (cid.rawSha256 (sha256.Sum256 d1)).String = (cid.rawSha256 (sha256.Sum256 d2)).String
      ↔ sha256.Sum256 d1 = sha256.Sum256 d2 := by
    constructor
    · intro h
      have e1 := cid.rawSha256_Decode noOthers _ (sha256.Sum256_length d1) (sha256.Sum256_lt d1)
      have e2 := cid.rawSha256_Decode noOthers _ (sha256.Sum256_length d2) (sha256.Sum256_lt d2)
      rw [h, e2] at e1
      simpa [cid.rawSha256] using e1.symm
    · intro h
      rw [h]
  refine ⟨_, _, computeCID_rawSha256 d1, computeCID_rawSha256 d2, key, ?_, ?_⟩
  · intro h
    rw [h]
  · intro h hs
    exact h (key.1 hs)

/-- C9 at the bytes hello world and abc, whose digests differ: so do the
strings of their identifiers. -/
theorem computeCID_string_eq_iff_witness :
    sha256.Sum256 helloWorld ≠ sha256.Sum256 abc ∧
    ∃ c1 c2, computeCID helloWorld = .ok c1 ∧ computeCID abc = .ok c2 ∧
      c1.String ≠ c2.String := by
  have hne : sha256.Sum256 helloWorld ≠ sha256.Sum256 abc := by
    rw [Sum256_helloWorld, sha256.Sum256_abc]
    decide
  obtain ⟨c1, c2, h1, h2, -, -, h⟩ := computeCID_string_eq_iff helloWorld abc
  exact ⟨hne, c1, c2, h1, h2, h hne⟩

/-- C10, as stated, fails: the identifier string computed for the 11 bytes of
hello world does not begin with bafkreih. -/
theorem helloWorld_cid_not_bafkreih :
    ∃ c, computeCID helloWorld = .ok c ∧ startsWith c.String "bafkreih" = false := by
  refine ⟨_, computeCID_rawSha256 helloWorld, ?_⟩
  rw [Sum256_helloWorld]
  decide!

/-- C10, amended: the identifier string computed for the 11 bytes of hello
world is bafkreifzjut3te2nhyekklss27nh3k72ysco7y32koao5eei66wof36n5e, which
begins with bafkreif. -/
theorem helloWorld_cid_string :
    ∃ c, computeCID helloWorld = .ok c ∧
      c.String = "bafkreifzjut3te2nhyekklss27nh3k72ysco7y32koao5eei66wof36n5e" ∧
      startsWith c.String "bafkreif" = true := by
  refine ⟨_, computeCID_rawSha256 helloWorld, ?_⟩
  rw [Sum256_helloWorld]
  decide!

end Seapin
